import Mathlib

/-!
# Verification of the target-list-generator enrichment core

A shallow embedding, in Lean 4, of the quality-gated summary-generation
pipeline of the `target-list-generator` repository:

* `lib/quality-validator.ts` — `validateSummaryQuality`,
  `generateRefinementPrompt`, `rateSummaryQuality`;
* `lib/claude.ts` — `generateCompanySummary` (the retry/refinement
  controller) and `processCompanies` (the batch runner);
* `lib/logo-fetcher.ts` — `fetchCompanyLogo` (three-tier fallback),
  `getCompanyInitials`, `batchFetchLogos`;
* the logo-merge step of `processCompaniesAction` in `app/actions.ts`.

JavaScript strings are modelled as Lean `String`s (ASCII-faithful; a
JS string's `.length` in UTF-16 code units is modelled by the character
count, which agrees on the Basic Multilingual Plane).  Effectful calls
to the external generation / asset services are modelled by explicit
environment oracles, and `async`/`await` sequencing by explicit state
passing (a call counter and a trace of the sleeps performed).
-/

namespace TargetList

/-! ## JavaScript string primitives -/

/-- Characters counted as whitespace by JS `trim` / `\s` (ASCII fragment). -/
def jsIsSpace (c : Char) : Bool := c.isWhitespace

/-- JS `String.prototype.trim`: drop whitespace from both ends. -/
def jsTrim (s : String) : String :=
  ⟨((s.data.dropWhile jsIsSpace).reverse.dropWhile jsIsSpace).reverse⟩

/-- JS `toLowerCase` (ASCII fragment). -/
def jsToLower (s : String) : String := ⟨s.data.map Char.toLower⟩

/-- JS `toUpperCase` (ASCII fragment). -/
def jsToUpper (s : String) : String := ⟨s.data.map Char.toUpper⟩

/-- `pat` occurs at the start of `s` (character lists). -/
def listPrefixB : List Char → List Char → Bool
  | [], _ => true
  | _ :: _, [] => false
  | p :: ps, c :: cs => p == c && listPrefixB ps cs

/-- `pat` occurs somewhere inside `s` (character lists). -/
def listInfixB (pat : List Char) : List Char → Bool
  | [] => listPrefixB pat []
  | c :: rest => listPrefixB pat (c :: rest) || listInfixB pat rest

/-- JS `String.prototype.includes`. -/
def strIncludes (s pat : String) : Bool := listInfixB pat.data s.data

/-- JS `Array.prototype.join` with separator `sep`. -/
def joinSep (sep : String) : List String → String
  | [] => ""
  | [x] => x
  | x :: y :: rest => x ++ sep ++ joinSep sep (y :: rest)

/-- JS `String.prototype.substring` with clamping and argument swapping. -/
def jsSubstring (s : String) (a b : Int) : String :=
  let len : Int := s.length
  let a' := min (max a 0) len
  let b' := min (max b 0) len
  let lo := min a' b'
  let hi := max a' b'
  ⟨(s.data.drop lo.toNat).take (hi - lo).toNat⟩

/-- One decimal digit character. -/
def digitChar (d : Nat) : Char :=
  match d % 10 with
  | 0 => '0' | 1 => '1' | 2 => '2' | 3 => '3' | 4 => '4'
  | 5 => '5' | 6 => '6' | 7 => '7' | 8 => '8' | _ => '9'

/-- Decimal digits of `n`, most significant first (with enough fuel). -/
def natReprAux : Nat → Nat → List Char
  | 0, _ => []
  | fuel + 1, n =>
    if n < 10 then [digitChar n]
    else natReprAux fuel (n / 10) ++ [digitChar (n % 10)]

/-- Decimal rendering of a natural number, as produced by a JS template
literal for an integral `Number`. -/
def natRepr (n : Nat) : String := ⟨natReprAux (n + 1) n⟩

/-! ## `lib/quality-validator.ts` -/

/-- `QualityCheckResult` (from `lib/types.ts`, as used by the validator). -/
structure QualityCheckResult where
  passed : Bool
  issues : List String
  length : Nat
  hasCompanyName : Bool
  hasGenericPhrases : Bool
  hasIndustryTerms : Bool
  isProperlyFormatted : Bool
  isTruncated : Bool
  deriving Repr, DecidableEq

/-- `GENERIC_PHRASES`: banned generic marketing phrases. -/
def GENERIC_PHRASES : List String :=
  [ "leading provider", "innovative solutions", "cutting-edge",
    "state-of-the-art", "world-class", "industry leader",
    "premier provider", "trusted partner", "comprehensive solutions",
    "full-service", "one-stop shop", "best-in-class" ]

/-- `TRUNCATION_INDICATORS`. -/
def TRUNCATION_INDICATORS : List String := ["...", "etc.", "etc", " and more"]

/-- Vague filler phrases (step 7 of `validateSummaryQuality`). -/
def vaguePhrases : List String :=
  [ "various services", "multiple solutions", "different products",
    "wide range", "diverse offerings" ]

/-- Issue text for a too-short candidate. -/
def tooShortMsg (n : Nat) : String :=
  "Too short (" ++ natRepr n ++ " chars, need 180-280)"

/-- Issue text for a too-long candidate. -/
def tooLongMsg (n : Nat) : String :=
  "Too long (" ++ natRepr n ++ " chars, max 280)"

/-- Issue text for an acceptable but non-ideal length. -/
def idealRangeMsg (n : Nat) : String :=
  "Length acceptable but outside ideal range (" ++ natRepr n
    ++ " chars, ideal 200-250)"

/-- Issue text listing the banned phrases found. -/
def genericMsg (found : List String) : String :=
  "Contains generic phrases: " ++ joinSep ", " found

/-- Issue text for a truncated candidate. -/
def truncatedMsg : String :=
  "Appears to be truncated (contains \"...\", \"etc.\", or \"and more\")"

/-- The "core" of a company name: text before the first comma, with a
trailing legal-entity suffix (`\s+(inc|incorporated|llc|ltd|corp|corporation)\.?$`,
case-insensitive) removed, trimmed, lowercased. -/
def companyNameCoreOf (companyName : String) : String :=
  jsToLower (jsTrim ⟨coreStrip (companyName.data.takeWhile (· ≠ ','))⟩)
where
  /-- Does the end-anchored suffix regex match starting at this position
  (maximal whitespace run, then one alternative, then an optional final
  period, then end of string)? -/
  coreSuffixHere (l : List Char) : Bool :=
    let ws := l.takeWhile jsIsSpace
    let rest := (l.drop ws.length).map Char.toLower
    decide (0 < ws.length) &&
      [ "inc", "incorporated", "llc", "ltd", "corp", "corporation"
      ].any (fun alt => rest = alt.data ∨ rest = alt.data ++ ['.'])
  /-- `String.prototype.replace` with the end-anchored suffix regex:
  delete from the leftmost matching position. -/
  coreStrip : List Char → List Char
    | [] => []
    | c :: rest =>
      if coreSuffixHere (c :: rest) then [] else c :: coreStrip rest

/-- The filter predicate of `criticalIssues` in `validateSummaryQuality`. -/
def isCriticalIssue (issue : String) : Bool :=
  strIncludes issue "Too short" || strIncludes issue "Too long" ||
    strIncludes issue "Missing company name" || strIncludes issue "truncated"

/-- `validateSummaryQuality` from `lib/quality-validator.ts`. -/
def validateSummaryQuality (summary companyName specialties : String) :
    QualityCheckResult :=
  let length := summary.length
  let lengthValid := decide (180 ≤ length) && decide (length ≤ 280)
  let issues1 : List String :=
    if lengthValid then
      if length < 200 || 250 < length then [idealRangeMsg length] else []
    else
      if length < 180 then [tooShortMsg length] else [tooLongMsg length]
  let normalizedSummary := jsToLower summary
  let normalizedCompanyName := jsToLower companyName
  let companyNameCore := companyNameCoreOf companyName
  let hasCompanyName :=
    strIncludes normalizedSummary normalizedCompanyName ||
      strIncludes normalizedSummary companyNameCore
  let issues2 : List String :=
    if hasCompanyName then [] else ["Missing company name"]
  let hasGenericPhrases := GENERIC_PHRASES.any (strIncludes normalizedSummary)
  let issues3 : List String :=
    if hasGenericPhrases then
      [genericMsg (GENERIC_PHRASES.filter (strIncludes normalizedSummary))]
    else []
  let specialtyTerms :=
    ((jsToLower specialties).splitOn ",").map jsTrim
      |>.filter (fun s => 3 < s.length)
  let hasIndustryTerms :=
    if specialties ≠ "" then specialtyTerms.any (strIncludes normalizedSummary)
    else false
  let issues4 : List String :=
    if specialties ≠ "" ∧ hasIndustryTerms = false ∧ 0 < specialtyTerms.length
    then ["Lacks industry-specific terminology from specialties"] else []
  let startsUpper : Bool :=
    match summary.data with
    | [] => true
    | c :: _ => c == c.toUpper
  let endsPeriod : Bool :=
    match summary.data.getLast? with
    | some c => c == '.'
    | none => false
  let isProperlyFormatted := startsUpper && endsPeriod
  let issues5 : List String :=
    if isProperlyFormatted then []
    else
      (if startsUpper then [] else ["Does not start with capital letter"]) ++
        (if endsPeriod then [] else ["Does not end with period"])
  let isTruncated := TRUNCATION_INDICATORS.any (strIncludes summary)
  let issues6 : List String := if isTruncated then [truncatedMsg] else []
  let isVague := vaguePhrases.any (strIncludes normalizedSummary)
  let issues7 : List String :=
    if isVague then ["Contains vague descriptions instead of specific offerings"]
    else []
  let issues := issues1 ++ issues2 ++ issues3 ++ issues4 ++ issues5
    ++ issues6 ++ issues7
  let criticalIssues := issues.filter isCriticalIssue
  { passed := criticalIssues.length == 0
    issues := issues
    length := length
    hasCompanyName := hasCompanyName
    hasGenericPhrases := hasGenericPhrases
    hasIndustryTerms := hasIndustryTerms
    isProperlyFormatted := isProperlyFormatted
    isTruncated := isTruncated }

/-- `generateRefinementPrompt` from `lib/quality-validator.ts`. -/
def generateRefinementPrompt (originalSummary : String)
    (qualityCheck : QualityCheckResult) (companyName specialties : String) :
    String :=
  let problems : List String :=
    (if qualityCheck.hasCompanyName then [] else
      ["- Must include the full company name: \"" ++ companyName ++ "\""]) ++
    (if qualityCheck.hasGenericPhrases then
      ["- Remove generic marketing phrases like \"leading provider\", \"innovative solutions\""]
     else []) ++
    (if qualityCheck.hasIndustryTerms = false ∧ specialties ≠ "" then
      ["- Include specific terminology from their specialties: "
        ++ joinSep ", " ((specialties.splitOn ",").take 3)]
     else []) ++
    (if qualityCheck.length < 180 then
      ["- Expand to at least 180 characters with more specific details"] else []) ++
    (if 280 < qualityCheck.length then
      ["- Shorten to maximum 280 characters while keeping key details"] else []) ++
    (if qualityCheck.isProperlyFormatted then [] else
      ["- Start with capital letter and end with period"]) ++
    (if qualityCheck.isTruncated then
      ["- Do not truncate; write a complete summary"] else [])
  "The previous summary needs improvement:\n\n\"" ++ originalSummary
    ++ "\"\n\nPROBLEMS:\n" ++ joinSep "\n" problems
    ++ "\n\nPlease rewrite the summary addressing all the above issues. Keep it factual, specific, and between 200-250 characters."

/-- Quality tier of a summary. -/
inductive SummaryQuality where
  | excellent
  | good
  | needs_review
  deriving Repr, DecidableEq

/-- `rateSummaryQuality` from `lib/quality-validator.ts`. -/
def rateSummaryQuality (qualityCheck : QualityCheckResult) : SummaryQuality :=
  if qualityCheck.passed = true ∧ 200 ≤ qualityCheck.length ∧
      qualityCheck.length ≤ 250 ∧ qualityCheck.hasCompanyName = true ∧
      qualityCheck.hasGenericPhrases = false ∧
      qualityCheck.hasIndustryTerms = true ∧
      qualityCheck.isProperlyFormatted = true ∧
      qualityCheck.isTruncated = false then
    SummaryQuality.excellent
  else if qualityCheck.passed = true ∧ qualityCheck.hasCompanyName = true ∧
      qualityCheck.isTruncated = false then
    SummaryQuality.good
  else
    SummaryQuality.needs_review

/-! ## `lib/claude.ts` — retry/refinement controller -/

/-- A raw CSV row (`SourcescubRawRow`), with the fields the core reads.
All fields are the raw strings of the uploaded table.  (The source reads
them under their bracketed CSV header names, e.g. `company['Company Name']`.) -/
structure SourcescubRawRow where
  companyName : String
  informalName : String
  city : String
  state : String
  website : String
  description : String
  specialties : String
  employeeCount : String
  latestEstimatedRevenue : String
  growthRate6Mo : String
  growthRate9Mo : String
  growthRate24Mo : String
  executiveTitle : String
  executiveFirstName : String
  executiveLastName : String
  industries : String
  deriving Repr, DecidableEq

/-- `AISummaryResult` (from `lib/types.ts`, as produced by
`generateCompanySummary`): `error` is `some msg` exactly on the absolute
fallback path. -/
structure AISummaryResult where
  summary : String
  quality : SummaryQuality
  retries : Nat
  error : Option String := none
  deriving Repr, DecidableEq

/-- Outcome of one `anthropic.messages.create` round-trip, as seen by the
controller: either the text of the response's text block, or a thrown
error carrying the HTTP status the controller classifies on (`429` rate
limited, `529` overloaded; any other value — including exceptions with no
HTTP status at all, such as the `'No text content in API response'` error
thrown by `extractSummary` — is unclassified). -/
inductive ApiOutcome where
  | ok (text : String)
  | err (status : Nat) (msg : String)
  deriving Repr, DecidableEq

/-- The external generation service, modelled as an oracle from the index
of the outbound call (0-based, per controller run) to its outcome. -/
def ApiOracle := Nat → ApiOutcome

/-- Observable effect state of one controller run: how many generation
calls were issued, and the sleeps performed (milliseconds, in order). -/
structure GenState where
  calls : Nat
  sleeps : List Nat
  deriving Repr, DecidableEq

/-- `MAX_RETRIES` from `lib/claude.ts`. -/
def MAX_RETRIES : Nat := 3

/-- `extractSummary`: strip `**` pairs (JS `replace(/\*\*/g, '')`). -/
def removeDoubleStars : List Char → List Char
  | '*' :: '*' :: rest => removeDoubleStars rest
  | c :: rest => c :: removeDoubleStars rest
  | [] => []

/-- `extractSummary` from `lib/claude.ts`: trim, strip markdown stars,
strip one pair of wrapping quotes. -/
def extractSummary (text : String) : String :=
  let s1 := jsTrim text
  let s2 : String := ⟨(removeDoubleStars s1.data).filter (· ≠ '*')⟩
  if s2.startsWith "\"" ∧ s2.endsWith "\"" then
    jsSubstring s2 1 ((s2.length : Int) - 1)
  else s2

/-- The absolute-fallback result (final `catch` branch of
`generateCompanySummary`): the row's description truncated to 150
characters with an ellipsis, tagged `needs_review`. -/
def fallbackResult (company : SourcescubRawRow) (retryCount : Nat)
    (msg : String) : AISummaryResult :=
  { summary := jsSubstring company.description 0 150 ++ "..."
    quality := SummaryQuality.needs_review
    retries := retryCount
    error := some msg }

/-- `generateCompanySummary` from `lib/claude.ts`.

One invocation issues an initial generation call; on a quality failure
with budget left it sleeps 1s, issues a refinement call, and either
finalizes or recurses at `retryCount + 1`; thrown errors with status 429
(resp. 529) and budget left sleep 5s (resp. 10s) and recurse; any other
thrown error finalizes with `fallbackResult`.  The state threads the call
counter (feeding the oracle) and the sleep trace. -/
def generateCompanySummary (api : ApiOracle) (company : SourcescubRawRow)
    (retryCount : Nat) (st : GenState) : AISummaryResult × GenState :=
  match api st.calls with
  | ApiOutcome.err status msg =>
    if h429 : status = 429 ∧ retryCount < MAX_RETRIES then
      generateCompanySummary api company (retryCount + 1)
        ⟨st.calls + 1, st.sleeps ++ [5000]⟩
    else if h529 : status = 529 ∧ retryCount < MAX_RETRIES then
      generateCompanySummary api company (retryCount + 1)
        ⟨st.calls + 1, st.sleeps ++ [10000]⟩
    else
      (fallbackResult company retryCount msg, ⟨st.calls + 1, st.sleeps⟩)
  | ApiOutcome.ok text =>
    let summary := extractSummary text
    let qualityCheck :=
      validateSummaryQuality summary company.companyName company.specialties
    if hq : qualityCheck.passed = false ∧ retryCount < MAX_RETRIES then
      -- sleep(1000), build the refinement prompt, second call
      let _refinementPrompt := generateRefinementPrompt summary qualityCheck
        company.companyName company.specialties
      match api (st.calls + 1) with
      | ApiOutcome.err status msg =>
        if h429 : status = 429 ∧ retryCount < MAX_RETRIES then
          generateCompanySummary api company (retryCount + 1)
            ⟨st.calls + 2, st.sleeps ++ [1000, 5000]⟩
        else if h529 : status = 529 ∧ retryCount < MAX_RETRIES then
          generateCompanySummary api company (retryCount + 1)
            ⟨st.calls + 2, st.sleeps ++ [1000, 10000]⟩
        else
          (fallbackResult company retryCount msg,
            ⟨st.calls + 2, st.sleeps ++ [1000]⟩)
      | ApiOutcome.ok text2 =>
        let refinedSummary := extractSummary text2
        let refinedQualityCheck := validateSummaryQuality refinedSummary
          company.companyName company.specialties
        if hq2 : refinedQualityCheck.passed = false ∧
            retryCount + 1 < MAX_RETRIES then
          generateCompanySummary api company (retryCount + 1)
            ⟨st.calls + 2, st.sleeps ++ [1000]⟩
        else
          ({ summary := refinedSummary
             quality := rateSummaryQuality refinedQualityCheck
             retries := retryCount + 1 },
            ⟨st.calls + 2, st.sleeps ++ [1000]⟩)
    else
      ({ summary := summary
         quality := rateSummaryQuality qualityCheck
         retries := retryCount },
        ⟨st.calls + 1, st.sleeps⟩)
termination_by MAX_RETRIES - retryCount
decreasing_by
  all_goals simp only [MAX_RETRIES] at *
  all_goals omega

/-! ## `lib/claude.ts` — batch runner and its helpers -/

/-- `formatCityState` from `lib/csv-parser.ts`: join the non-empty parts
with `", "` (JS truthiness: the empty string is skipped). -/
def formatCityState (city state : String) : String :=
  joinSep ", " ((if city ≠ "" then [city] else []) ++
    (if state ≠ "" then [state] else []))

/-- `extractDomain` (the local helper in `lib/claude.ts`): strip the
scheme, a leading `www.`, and everything from the first `/` or `?`. -/
def extractDomain (website : String) : String :=
  if website = "" then ""
  else
    let d1 := dropScheme website.data
    let d2 := if listPrefixB "www.".data d1 then d1.drop 4 else d1
    ⟨(d2.takeWhile (· ≠ '/')).takeWhile (· ≠ '?')⟩
where
  /-- `replace(/^https?:\/\//, '')`. -/
  dropScheme (l : List Char) : List Char :=
    if listPrefixB "https://".data l then l.drop 8
    else if listPrefixB "http://".data l then l.drop 7
    else l

/-- `getExecutiveName` from `lib/claude.ts`. -/
def getExecutiveName (firstName lastName : String) : String :=
  joinSep " " ((if firstName ≠ "" then [firstName] else []) ++
    (if lastName ≠ "" then [lastName] else []))

/-- `formatExecutive` from `lib/claude.ts` (name and title separated by a
line break). -/
def formatExecutive (firstName lastName title : String) : String :=
  let name := getExecutiveName firstName lastName
  if name = "" ∧ title = "" then ""
  else if title = "" then name
  else if name = "" then title
  else name ++ "\n" ++ title

/-- Provenance of a fetched logo (`LogoResult.source` in
`lib/logo-fetcher.ts`). -/
inductive LogoSource where
  | clearbit
  | favicon
  | initials
  | none
  deriving Repr, DecidableEq

/-- `ProcessedCompany` (from `lib/types.ts`, as built by
`processCompanies`).  The source parses `latestEstimatedRevenue` and
`estRevMillions` into IEEE-754 numbers; the embedding carries the raw
revenue string instead (no claim depends on the float values). -/
structure ProcessedCompany where
  companyName : String
  informalName : String
  city : String
  state : String
  cityState : String
  website : String
  domain : String
  originalDescription : String
  aiSummary : String
  specialties : String
  employeeCount : String
  latestEstimatedRevenueRaw : String
  growthRate6Mo : String
  growthRate9Mo : String
  growthRate24Mo : String
  executiveTitle : String
  executiveFirstName : String
  executiveLastName : String
  executiveName : String
  executiveFormatted : String
  industries : String
  summaryQuality : SummaryQuality
  summaryRetries : Nat
  logo : Option String := Option.none
  logoSource : Option LogoSource := Option.none
  deriving Repr, DecidableEq

/-- The record `processCompanies` builds for one row from the row and the
controller's summary result. -/
def buildProcessed (company : SourcescubRawRow) (summaryResult : AISummaryResult) :
    ProcessedCompany :=
  { companyName := company.companyName
    informalName := company.informalName
    city := company.city
    state := company.state
    cityState := formatCityState company.city company.state
    website := company.website
    domain := extractDomain company.website
    originalDescription := company.description
    aiSummary := summaryResult.summary
    specialties := company.specialties
    employeeCount := company.employeeCount
    latestEstimatedRevenueRaw := company.latestEstimatedRevenue
    growthRate6Mo := company.growthRate6Mo
    growthRate9Mo := company.growthRate9Mo
    growthRate24Mo := company.growthRate24Mo
    executiveTitle := company.executiveTitle
    executiveFirstName := company.executiveFirstName
    executiveLastName := company.executiveLastName
    executiveName := getExecutiveName company.executiveFirstName
      company.executiveLastName
    executiveFormatted := formatExecutive company.executiveFirstName
      company.executiveLastName company.executiveTitle
    industries := company.industries
    summaryQuality := summaryResult.quality
    summaryRetries := summaryResult.retries }

/-- `processCompanies` from `lib/claude.ts`: sequentially, for each row
in order, run the retry/refinement controller and build a
`ProcessedCompany`; `apis i` is the generation-service oracle seen by row
`i` (each row starts its own controller run; the 500 ms pacing sleep and
the progress callback between rows are side channels with no effect on
the result). -/
def processCompanies (apis : Nat → ApiOracle) :
    List SourcescubRawRow → Nat → List ProcessedCompany
  | [], _ => []
  | company :: rest, i =>
    buildProcessed company
        (generateCompanySummary (apis i) company 0 ⟨0, []⟩).1 ::
      processCompanies apis rest (i + 1)

/-! ## `lib/logo-fetcher.ts` -/

/-- `LogoResult` from `lib/logo-fetcher.ts`. -/
structure LogoResult where
  success : Bool
  data : Option String := Option.none
  source : LogoSource
  error : Option String := Option.none
  deriving Repr, DecidableEq

/-- Outcome of one `fetchWithTimeout` round-trip plus body handling:
either any exception inside the `try` (network error, 2 s timeout abort,
blob-conversion failure), or a response with its `ok` flag, HTTP status,
blob size in bytes, and base64-encoded body. -/
inductive HttpOutcome where
  | thrown (msg : String)
  | resp (ok : Bool) (status : Nat) (blobSize : Nat) (base64 : String)
  deriving Repr, DecidableEq

/-- Outcome of the `btoa` call in `generateInitialsLogo` (it throws on
input outside Latin-1). -/
inductive BtoaOutcome where
  | ok (base64 : String)
  | thrown (msg : String)
  deriving Repr, DecidableEq

/-- The external world seen by one logo fetch: the Clearbit response, the
Google-favicon response, and the behaviour of `btoa` on the synthesized
SVG. -/
structure FetchEnv where
  clearbit : HttpOutcome
  favicon : HttpOutcome
  btoa : String → BtoaOutcome

/-- Which fallback tier was attempted (for stating ordering properties). -/
inductive Tier where
  | clearbit
  | favicon
  | initials
  deriving Repr, DecidableEq

/-- `getCompanyInitials` from `lib/logo-fetcher.ts`: the word-boundary
check of the suffix regex `/,?\s+(Inc|LLC|Ltd|Corp|Corporation|Company|Co)\b\.?/gi`. -/
def isWordChar (c : Char) : Bool := c.isAlpha || c.isDigit || c == '_'

/-- Case-insensitive prefix test (regex `/i` flag, ASCII fragment). -/
def caseInsPrefixB : List Char → List Char → Bool
  | [], _ => true
  | _ :: _, [] => false
  | p :: ps, c :: cs => p.toLower == c.toLower && caseInsPrefixB ps cs

/-- The legal-suffix alternatives of `getCompanyInitials`, in the
regex's alternation order. -/
def initialsSuffixAlts : List String :=
  ["Inc", "LLC", "Ltd", "Corp", "Corporation", "Company", "Co"]

/-- Try the alternation `(Inc|LLC|Ltd|Corp|Corporation|Company|Co)\b` at
the head of `l`: the first alternative that matches case-insensitively
and is followed by a word boundary wins; returns the matched length. -/
def altMatch (l : List Char) : Option Nat :=
  initialsSuffixAlts.findSome? fun alt =>
    if caseInsPrefixB alt.data l then
      match l.drop alt.length with
      | [] => some alt.length
      | c :: _ => if isWordChar c then Option.none else some alt.length
    else Option.none

/-- The `\s+(...)\b\.?` part of the suffix regex, tried at the head of
`l`; returns the length consumed. -/
def suffixWsMatch (l : List Char) : Option Nat :=
  let ws := l.takeWhile jsIsSpace
  if ws.length = 0 then Option.none
  else
    let l2 := l.drop ws.length
    match altMatch l2 with
    | some altLen =>
      let dotLen : Nat :=
        match l2.drop altLen with
        | '.' :: _ => 1
        | _ => 0
      some (ws.length + altLen + dotLen)
    | Option.none => Option.none

/-- Try the whole regex `,?\s+(...)\b\.?` at the head of `l`; returns the
total length consumed by the match.  (A leading comma must be followed by
a whitespace run for the alternatives to be reachable, so consuming it
greedily is faithful to the regex's backtracking.) -/
def suffixMatchAt : List Char → Option Nat
  | ',' :: r => (suffixWsMatch r).map (· + 1)
  | l => suffixWsMatch l

theorem suffixWsMatch_pos {l : List Char} {n : Nat}
    (h : suffixWsMatch l = some n) : 1 ≤ n := by
  unfold suffixWsMatch at h
  simp only [] at h
  split at h
  · exact absurd h (by simp)
  · split at h
    · simp only [Option.some.injEq] at h
      omega
    · exact absurd h (by simp)

theorem suffixMatchAt_pos {l : List Char} {n : Nat}
    (h : suffixMatchAt l = some n) : 1 ≤ n := by
  unfold suffixMatchAt at h
  split at h
  · rcases Option.map_eq_some'.mp h with ⟨m, _, hm⟩
    omega
  · exact suffixWsMatch_pos h

/-- The scan of the global suffix `replace` in `getCompanyInitials`,
with explicit fuel for structural recursion (each step consumes at least
one character, so `fuel = l.length` never runs out). -/
def stripSuffixAux : Nat → List Char → List Char
  | 0, l => l
  | _ + 1, [] => []
  | fuel + 1, c :: rest =>
    match suffixMatchAt (c :: rest) with
    | some n => stripSuffixAux fuel ((c :: rest).drop n)
    | Option.none => c :: stripSuffixAux fuel rest

/-- The global `replace` of the suffix regex in `getCompanyInitials`:
scan left to right, deleting each match and resuming after it. -/
def stripLegalSuffixes (l : List Char) : List Char :=
  stripSuffixAux l.length l

/-- Tokenizer scan with explicit fuel (again, `fuel = l.length` never
runs out). -/
def splitWsAux : Nat → List Char → List (List Char)
  | 0, _ => []
  | _ + 1, [] => []
  | fuel + 1, c :: rest =>
    if jsIsSpace c then splitWsAux fuel rest
    else
      (c :: rest.takeWhile (fun x => !jsIsSpace x)) ::
        splitWsAux fuel (rest.dropWhile (fun x => !jsIsSpace x))

/-- `split(/\s+/)` followed by `filter(w => w.length > 0)`: the
whitespace-separated tokens of `l`. -/
def splitWsTokens (l : List Char) : List (List Char) :=
  splitWsAux l.length l

/-- The words of the cleaned company name in `getCompanyInitials`. -/
def initialsWords (companyName : String) : List String :=
  (splitWsTokens (jsTrim ⟨stripLegalSuffixes companyName.data⟩).data).map
    fun l => (⟨l⟩ : String)

/-- `getCompanyInitials` from `lib/logo-fetcher.ts`. -/
def getCompanyInitials (companyName : String) : String :=
  if companyName = "" ∨ jsTrim companyName = "" then "??"
  else
    match initialsWords companyName with
    | [] => jsToUpper (jsSubstring companyName 0 2)
    | [w] => jsToUpper (jsSubstring w 0 2)
    | w1 :: w2 :: _ => jsToUpper ⟨w1.data.take 1 ++ w2.data.take 1⟩

/-- JS `ToInt32` (wrap into the signed 32-bit range). -/
def toInt32 (x : Int) : Int := (x + 2 ^ 31) % 2 ^ 32 - 2 ^ 31

/-- The hash loop of `generateColorFromName`:
`hash = name.charCodeAt(i) + ((hash << 5) - hash)` over the characters in
order.  (`<<` operates on 32-bit signed integers; the outer sum is exact
JS double arithmetic, which Int models exactly for realistic name
lengths.) -/
def colorHash (name : String) : Int :=
  name.data.foldl (fun hash c =>
    (c.toNat : Int) + (toInt32 (toInt32 hash * 32) - hash)) 0

/-- `generateColorFromName` from `lib/logo-fetcher.ts`. -/
def generateColorFromName (name : String) : String :=
  "hsl(" ++ natRepr ((colorHash name).natAbs % 360) ++ ", 65%, 50%)"

/-- The SVG template of `generateInitialsLogo` (with `LOGO_SIZE = 32`
interpolated: `32 / 2 = 16`, `32 / 2.5 = 12.8`). -/
def initialsSvg (companyName : String) : String :=
  let initials := getCompanyInitials companyName
  let color := generateColorFromName companyName
  "\n      <svg width=\"32\" height=\"32\" xmlns=\"http://www.w3.org/2000/svg\">\n        <circle cx=\"16\" cy=\"16\" r=\"16\" fill=\"" ++ color
    ++ "\"/>\n        <text\n          x=\"50%\"\n          y=\"50%\"\n          text-anchor=\"middle\"\n          dy=\".35em\"\n          font-family=\"Arial, sans-serif\"\n          font-size=\"12.8\"\n          font-weight=\"bold\"\n          fill=\"white\"\n        >"
    ++ initials ++ "</text>\n      </svg>\n    "

/-- `generateInitialsLogo` from `lib/logo-fetcher.ts`: synthesize the
initials SVG; `source` is `none` exactly when `btoa` throws. -/
def generateInitialsLogo (env : FetchEnv) (companyName : String) : LogoResult :=
  match env.btoa (initialsSvg companyName) with
  | BtoaOutcome.ok base64 =>
    { success := true
      data := some ("data:image/svg+xml;base64," ++ base64)
      source := LogoSource.initials }
  | BtoaOutcome.thrown msg =>
    { success := false
      source := LogoSource.none
      error := some msg }

/-- `fetchFromClearbit` from `lib/logo-fetcher.ts`. -/
def fetchFromClearbit (env : FetchEnv) : LogoResult :=
  match env.clearbit with
  | HttpOutcome.thrown msg =>
    { success := false, source := LogoSource.clearbit, error := some msg }
  | HttpOutcome.resp ok status _ base64 =>
    if ok = false then
      { success := false, source := LogoSource.clearbit
        error := some ("HTTP " ++ natRepr status) }
    else
      { success := true, data := some base64, source := LogoSource.clearbit }

/-- `fetchFromGoogleFavicon` from `lib/logo-fetcher.ts`: additionally
rejects blobs smaller than 100 bytes (Google's default icon). -/
def fetchFromGoogleFavicon (env : FetchEnv) : LogoResult :=
  match env.favicon with
  | HttpOutcome.thrown msg =>
    { success := false, source := LogoSource.favicon, error := some msg }
  | HttpOutcome.resp ok status blobSize base64 =>
    if ok = false then
      { success := false, source := LogoSource.favicon
        error := some ("HTTP " ++ natRepr status) }
    else if blobSize < 100 then
      { success := false, source := LogoSource.favicon
        error := some "Default icon returned" }
    else
      { success := true, data := some base64, source := LogoSource.favicon }

/-- `cleanDomainName` from `lib/logo-fetcher.ts`. -/
def cleanDomainName (domain : String) : String :=
  jsTrim (jsToLower (extractDomain.dropScheme domain.data |>
    (fun l => if listPrefixB "www.".data l then l.drop 4 else l) |>
    (fun l => ⟨(l.takeWhile (· ≠ '/')).takeWhile (· ≠ '?')⟩)))

/-- `fetchCompanyLogo` from `lib/logo-fetcher.ts`, also recording which
tiers were attempted, in order. -/
def fetchCompanyLogo (env : FetchEnv) (domain companyName : String) :
    LogoResult × List Tier :=
  if domain = "" ∨ jsTrim domain = "" then
    (generateInitialsLogo env companyName, [Tier.initials])
  else
    let clearbitResult := fetchFromClearbit env
    if clearbitResult.success then (clearbitResult, [Tier.clearbit])
    else
      let faviconResult := fetchFromGoogleFavicon env
      if faviconResult.success then
        (faviconResult, [Tier.clearbit, Tier.favicon])
      else
        (generateInitialsLogo env companyName,
          [Tier.clearbit, Tier.favicon, Tier.initials])

/-! ## `batchFetchLogos` and the logo merge of `processCompaniesAction` -/

/-- One item of `batchFetchLogos`' input (`{domain, companyName}`). -/
structure LogoRequest where
  domain : String
  companyName : String
  deriving Repr, DecidableEq

/-- A JS `Map<string, LogoResult>` as an insertion-ordered association
list with unique keys. -/
abbrev LogoMap := List (String × LogoResult)

/-- JS `Map.prototype.set`: update in place if the key exists, else
append. -/
def mapSet (m : LogoMap) (k : String) (v : LogoResult) : LogoMap :=
  if m.any (fun p => p.1 = k) then
    m.map (fun p => if p.1 = k then (k, v) else p)
  else m ++ [(k, v)]

/-- JS `Map.prototype.get`. -/
def mapGet (m : LogoMap) (k : String) : Option LogoResult :=
  (m.find? (fun p => p.1 = k)).map (fun p => p.2)

/-- Number of entries of the map (JS `Map.prototype.size`). -/
def mapSize (m : LogoMap) : Nat := m.length

/-- Fetch the logos of one window, in order, and store each under the
item's `companyName` (`batchResults.forEach(({key, result}) => results.set(key, result))`);
`envs i` is the fetch environment of the `i`-th item of the whole input. -/
def storeBatch (envs : Nat → FetchEnv) : List LogoRequest → Nat → LogoMap → LogoMap
  | [], _, acc => acc
  | item :: rest, i, acc =>
    storeBatch envs rest (i + 1)
      (mapSet acc item.companyName
        (fetchCompanyLogo (envs i) item.domain item.companyName).1)

/-- The window loop of `batchFetchLogos` (`while (queue.length > 0) { const batch = queue.splice(0, concurrency); ... }`).
Concurrency only bounds how many fetches are in flight; results are
stored in batch order, so the map contents equal a sequential
left-to-right fold.  (With `concurrency = 0` the source loops forever;
the model returns the accumulator — callers always pass 5.) -/
def batchLoop (envs : Nat → FetchEnv) (concurrency : Nat) :
    List LogoRequest → Nat → LogoMap → LogoMap
  | [], _, acc => acc
  | item :: rest, i, acc =>
    if concurrency = 0 then acc
    else
      batchLoop envs concurrency ((item :: rest).drop concurrency)
        (i + ((item :: rest).take concurrency).length)
        (storeBatch envs ((item :: rest).take concurrency) i acc)
termination_by queue => queue.length
decreasing_by
  simp only [List.length_drop, List.length_cons]
  omega

/-- `batchFetchLogos` from `lib/logo-fetcher.ts`: returns the
`Map<companyName, LogoResult>`. -/
def batchFetchLogos (envs : Nat → FetchEnv) (companies : List LogoRequest)
    (concurrency : Nat) : LogoMap :=
  batchLoop envs concurrency companies 0 []

/-- The logo fields a record receives in the merge step. -/
def attachLogo (m : LogoMap) (company : ProcessedCompany) : ProcessedCompany :=
  match mapGet m company.companyName with
  | some logoResult =>
    if logoResult.success then
      { company with
          logo := logoResult.data
          logoSource := some logoResult.source }
    else { company with logoSource := some LogoSource.none }
  | Option.none => { company with logoSource := some LogoSource.none }

/-- The merge loop of `processCompaniesAction` in `app/actions.ts`:
attach each company's logo by looking its `companyName` up in the map. -/
def attachLogos (m : LogoMap) (companies : List ProcessedCompany) :
    List ProcessedCompany :=
  companies.map (attachLogo m)

/-! ## Branch equations of the retry/refinement controller

One equation per control path of `generateCompanySummary`; everything
about claims C1, C4 and C5 is derived from these. -/

/-- The candidate the controller extracts and its verdict, for stating
the quality conditions. -/
def verdictOf (company : SourcescubRawRow) (text : String) : QualityCheckResult :=
  validateSummaryQuality (extractSummary text) company.companyName
    company.specialties

theorem gen_err_429 (api : ApiOracle) (company : SourcescubRawRow)
    (retryCount : Nat) (st : GenState) (msg : String)
    (hapi : api st.calls = ApiOutcome.err 429 msg)
    (hrc : retryCount < MAX_RETRIES) :
    generateCompanySummary api company retryCount st =
      generateCompanySummary api company (retryCount + 1)
        ⟨st.calls + 1, st.sleeps ++ [5000]⟩ := by
  rw [generateCompanySummary, hapi]
  simp [hrc]

theorem gen_err_529 (api : ApiOracle) (company : SourcescubRawRow)
    (retryCount : Nat) (st : GenState) (msg : String)
    (hapi : api st.calls = ApiOutcome.err 529 msg)
    (hrc : retryCount < MAX_RETRIES) :
    generateCompanySummary api company retryCount st =
      generateCompanySummary api company (retryCount + 1)
        ⟨st.calls + 1, st.sleeps ++ [10000]⟩ := by
  rw [generateCompanySummary, hapi]
  simp [hrc]

theorem gen_err_fallback (api : ApiOracle) (company : SourcescubRawRow)
    (retryCount : Nat) (st : GenState) (status : Nat) (msg : String)
    (hapi : api st.calls = ApiOutcome.err status msg)
    (h429 : ¬(status = 429 ∧ retryCount < MAX_RETRIES))
    (h529 : ¬(status = 529 ∧ retryCount < MAX_RETRIES)) :
    generateCompanySummary api company retryCount st =
      (fallbackResult company retryCount msg, ⟨st.calls + 1, st.sleeps⟩) := by
  rw [generateCompanySummary, hapi]
  simp only [dif_neg h429, dif_neg h529]

theorem gen_ok_accept (api : ApiOracle) (company : SourcescubRawRow)
    (retryCount : Nat) (st : GenState) (text : String)
    (hapi : api st.calls = ApiOutcome.ok text)
    (hq : ¬((verdictOf company text).passed = false ∧
      retryCount < MAX_RETRIES)) :
    generateCompanySummary api company retryCount st =
      ({ summary := extractSummary text
         quality := rateSummaryQuality (verdictOf company text)
         retries := retryCount },
        ⟨st.calls + 1, st.sleeps⟩) := by
  rw [generateCompanySummary, hapi]
  simp only [verdictOf] at hq
  simp only [dif_neg hq]
  rfl

theorem gen_refine_err_429 (api : ApiOracle) (company : SourcescubRawRow)
    (retryCount : Nat) (st : GenState) (text : String) (msg : String)
    (hapi : api st.calls = ApiOutcome.ok text)
    (hq : (verdictOf company text).passed = false)
    (hrc : retryCount < MAX_RETRIES)
    (hapi2 : api (st.calls + 1) = ApiOutcome.err 429 msg) :
    generateCompanySummary api company retryCount st =
      generateCompanySummary api company (retryCount + 1)
        ⟨st.calls + 2, st.sleeps ++ [1000, 5000]⟩ := by
  rw [generateCompanySummary, hapi]
  simp only [verdictOf] at hq
  dsimp only
  rw [dif_pos ⟨hq, hrc⟩, hapi2]
  dsimp only
  simp [hrc]

theorem gen_refine_err_529 (api : ApiOracle) (company : SourcescubRawRow)
    (retryCount : Nat) (st : GenState) (text : String) (msg : String)
    (hapi : api st.calls = ApiOutcome.ok text)
    (hq : (verdictOf company text).passed = false)
    (hrc : retryCount < MAX_RETRIES)
    (hapi2 : api (st.calls + 1) = ApiOutcome.err 529 msg) :
    generateCompanySummary api company retryCount st =
      generateCompanySummary api company (retryCount + 1)
        ⟨st.calls + 2, st.sleeps ++ [1000, 10000]⟩ := by
  rw [generateCompanySummary, hapi]
  simp only [verdictOf] at hq
  dsimp only
  rw [dif_pos ⟨hq, hrc⟩, hapi2]
  dsimp only
  simp [hrc]

theorem gen_refine_err_fallback (api : ApiOracle) (company : SourcescubRawRow)
    (retryCount : Nat) (st : GenState) (text : String) (status : Nat)
    (msg : String)
    (hapi : api st.calls = ApiOutcome.ok text)
    (hq : (verdictOf company text).passed = false)
    (hrc : retryCount < MAX_RETRIES)
    (hapi2 : api (st.calls + 1) = ApiOutcome.err status msg)
    (h429 : ¬(status = 429 ∧ retryCount < MAX_RETRIES))
    (h529 : ¬(status = 529 ∧ retryCount < MAX_RETRIES)) :
    generateCompanySummary api company retryCount st =
      (fallbackResult company retryCount msg,
        ⟨st.calls + 2, st.sleeps ++ [1000]⟩) := by
  rw [generateCompanySummary, hapi]
  simp only [verdictOf] at hq
  dsimp only
  rw [dif_pos ⟨hq, hrc⟩, hapi2]
  dsimp only
  simp only [dif_neg h429, dif_neg h529]

theorem gen_refine_recurse (api : ApiOracle) (company : SourcescubRawRow)
    (retryCount : Nat) (st : GenState) (text text2 : String)
    (hapi : api st.calls = ApiOutcome.ok text)
    (hq : (verdictOf company text).passed = false)
    (hrc : retryCount < MAX_RETRIES)
    (hapi2 : api (st.calls + 1) = ApiOutcome.ok text2)
    (hq2 : (verdictOf company text2).passed = false)
    (hrc2 : retryCount + 1 < MAX_RETRIES) :
    generateCompanySummary api company retryCount st =
      generateCompanySummary api company (retryCount + 1)
        ⟨st.calls + 2, st.sleeps ++ [1000]⟩ := by
  rw [generateCompanySummary, hapi]
  simp only [verdictOf] at hq hq2
  dsimp only
  rw [dif_pos ⟨hq, hrc⟩, hapi2]
  dsimp only
  rw [dif_pos ⟨hq2, hrc2⟩]

theorem gen_refine_final (api : ApiOracle) (company : SourcescubRawRow)
    (retryCount : Nat) (st : GenState) (text text2 : String)
    (hapi : api st.calls = ApiOutcome.ok text)
    (hq : (verdictOf company text).passed = false)
    (hrc : retryCount < MAX_RETRIES)
    (hapi2 : api (st.calls + 1) = ApiOutcome.ok text2)
    (hq2 : ¬((verdictOf company text2).passed = false ∧
      retryCount + 1 < MAX_RETRIES)) :
    generateCompanySummary api company retryCount st =
      ({ summary := extractSummary text2
         quality := rateSummaryQuality (verdictOf company text2)
         retries := retryCount + 1 },
        ⟨st.calls + 2, st.sleeps ++ [1000]⟩) := by
  rw [generateCompanySummary, hapi]
  simp only [verdictOf] at hq hq2
  dsimp only
  rw [dif_pos ⟨hq, hrc⟩, hapi2]
  dsimp only
  rw [dif_neg hq2]
  rfl

/-- Master invariant of the controller, by induction on the remaining
budget: the run issues at most `2 * (MAX_RETRIES - retryCount) + 1`
further generation calls, the reported `retries` never exceeds
`MAX_RETRIES`, and any run whose result carries an `error` returns the
deterministic description-truncation fallback tagged `needs_review`. -/
theorem gen_master (api : ApiOracle) (company : SourcescubRawRow) :
    ∀ d retryCount st, MAX_RETRIES - retryCount ≤ d →
      retryCount ≤ MAX_RETRIES →
      (generateCompanySummary api company retryCount st).2.calls ≤
          st.calls + 2 * (MAX_RETRIES - retryCount) + 1 ∧
        (generateCompanySummary api company retryCount st).1.retries ≤
          MAX_RETRIES ∧
        ∀ msg, (generateCompanySummary api company retryCount st).1.error =
            some msg →
          (generateCompanySummary api company retryCount st).1.summary =
              jsSubstring company.description 0 150 ++ "..." ∧
            (generateCompanySummary api company retryCount st).1.quality =
              SummaryQuality.needs_review := by
  intro d
  induction d with
  | zero =>
    intro rc st hd hrc3
    have hrc : ¬ rc < MAX_RETRIES := by omega
    cases hapi : api st.calls with
    | err status msg =>
      rw [gen_err_fallback api company rc st status msg hapi
        (fun h => hrc h.2) (fun h => hrc h.2)]
      refine ⟨by dsimp only; omega, by dsimp only [fallbackResult]; omega, ?_⟩
      intro m _
      exact ⟨rfl, rfl⟩
    | ok text =>
      rw [gen_ok_accept api company rc st text hapi (fun h => hrc h.2)]
      refine ⟨by dsimp only; omega, by dsimp only; omega, ?_⟩
      intro m hm
      simp at hm
  | succ d ih =>
    intro rc st hd hrc3
    by_cases hrc : rc < MAX_RETRIES
    · have hd' : MAX_RETRIES - (rc + 1) ≤ d := by omega
      have hrc3' : rc + 1 ≤ MAX_RETRIES := by omega
      cases hapi : api st.calls with
      | err status msg =>
        by_cases h429 : status = 429
        · subst h429
          rw [gen_err_429 api company rc st msg hapi hrc]
          rcases ih (rc + 1) ⟨st.calls + 1, st.sleeps ++ [5000]⟩ hd' hrc3'
            with ⟨hc, hr, he⟩
          refine ⟨?_, hr, he⟩
          dsimp only at hc
          omega
        · by_cases h529 : status = 529
          · subst h529
            rw [gen_err_529 api company rc st msg hapi hrc]
            rcases ih (rc + 1) ⟨st.calls + 1, st.sleeps ++ [10000]⟩ hd' hrc3'
              with ⟨hc, hr, he⟩
            refine ⟨?_, hr, he⟩
            dsimp only at hc
            omega
          · rw [gen_err_fallback api company rc st status msg hapi
              (fun h => h429 h.1) (fun h => h529 h.1)]
            refine ⟨by dsimp only; omega,
              by dsimp only [fallbackResult]; omega, ?_⟩
            intro m _
            exact ⟨rfl, rfl⟩
      | ok text =>
        by_cases hq : (verdictOf company text).passed = false
        · cases hapi2 : api (st.calls + 1) with
          | err status msg =>
            by_cases h429 : status = 429
            · subst h429
              rw [gen_refine_err_429 api company rc st text msg hapi hq hrc
                hapi2]
              rcases ih (rc + 1) ⟨st.calls + 2, st.sleeps ++ [1000, 5000]⟩
                hd' hrc3' with ⟨hc, hr, he⟩
              refine ⟨?_, hr, he⟩
              dsimp only at hc
              omega
            · by_cases h529 : status = 529
              · subst h529
                rw [gen_refine_err_529 api company rc st text msg hapi hq hrc
                  hapi2]
                rcases ih (rc + 1) ⟨st.calls + 2, st.sleeps ++ [1000, 10000]⟩
                  hd' hrc3' with ⟨hc, hr, he⟩
                refine ⟨?_, hr, he⟩
                dsimp only at hc
                omega
              · rw [gen_refine_err_fallback api company rc st text status msg
                  hapi hq hrc hapi2 (fun h => h429 h.1) (fun h => h529 h.1)]
                refine ⟨by dsimp only; omega,
                  by dsimp only [fallbackResult]; omega, ?_⟩
                intro m _
                exact ⟨rfl, rfl⟩
          | ok text2 =>
            by_cases hq2 : (verdictOf company text2).passed = false ∧
                rc + 1 < MAX_RETRIES
            · rw [gen_refine_recurse api company rc st text text2 hapi hq hrc
                hapi2 hq2.1 hq2.2]
              rcases ih (rc + 1) ⟨st.calls + 2, st.sleeps ++ [1000]⟩
                hd' hrc3' with ⟨hc, hr, he⟩
              refine ⟨?_, hr, he⟩
              dsimp only at hc
              omega
            · rw [gen_refine_final api company rc st text text2 hapi hq hrc
                hapi2 hq2]
              refine ⟨by dsimp only; omega, by dsimp only; omega, ?_⟩
              intro m hm
              simp at hm
        · rw [gen_ok_accept api company rc st text hapi
            (fun h => hq h.1)]
          refine ⟨by dsimp only; omega, by dsimp only; omega, ?_⟩
          intro m hm
          simp at hm
    · cases hapi : api st.calls with
      | err status msg =>
        rw [gen_err_fallback api company rc st status msg hapi
          (fun h => hrc h.2) (fun h => hrc h.2)]
        refine ⟨by dsimp only; omega, by dsimp only [fallbackResult]; omega, ?_⟩
        intro m _
        exact ⟨rfl, rfl⟩
      | ok text =>
        rw [gen_ok_accept api company rc st text hapi (fun h => hrc h.2)]
        refine ⟨by dsimp only; omega, by dsimp only; omega, ?_⟩
        intro m hm
        simp at hm

/-! ## Substring analysis for the critical-issue filter

`validateSummaryQuality` decides `passed` by scanning its own issue
strings for the four critical markers.  The lemmas below settle, for
every possible issue string (including the ones with interpolated
numbers and phrase lists), whether the scan can fire. -/

theorem listPrefixB_append_left {p l : List Char} (m : List Char)
    (h : listPrefixB p l = true) : listPrefixB p (l ++ m) = true := by
  induction p generalizing l with
  | nil => rfl
  | cons a as ih =>
    cases l with
    | nil => simp [listPrefixB] at h
    | cons b bs =>
      simp only [listPrefixB, Bool.and_eq_true] at h ⊢
      exact ⟨h.1, ih h.2⟩

theorem listInfixB_of_prefixB {p s : List Char}
    (h : listPrefixB p s = true) : listInfixB p s = true := by
  cases s with
  | nil => simpa [listInfixB]
  | cons c cs => simp [listInfixB, h]

theorem mem_of_prefixB {p s : List Char} {c : Char}
    (h : listPrefixB p s = true) (hc : c ∈ p) : c ∈ s := by
  induction p generalizing s with
  | nil => simp at hc
  | cons a as ih =>
    cases s with
    | nil => simp [listPrefixB] at h
    | cons b bs =>
      simp only [listPrefixB, Bool.and_eq_true, beq_iff_eq] at h
      rcases List.mem_cons.mp hc with hc | hc
      · exact List.mem_cons.mpr (Or.inl (hc.trans h.1))
      · exact List.mem_cons.mpr (Or.inr (ih h.2 hc))

theorem mem_of_infixB {p s : List Char} {c : Char}
    (h : listInfixB p s = true) (hc : c ∈ p) : c ∈ s := by
  induction s with
  | nil =>
    simp only [listInfixB] at h
    cases p with
    | nil => simp at hc
    | cons a as => simp [listPrefixB] at h
  | cons b bs ih =>
    simp only [listInfixB, Bool.or_eq_true] at h
    rcases h with h | h
    · exact mem_of_prefixB h hc
    · exact List.mem_cons.mpr (Or.inr (ih h))

theorem infixB_false_of_not_mem {p s : List Char} {c : Char}
    (hc : c ∈ p) (hs : c ∉ s) : listInfixB p s = false := by
  cases h : listInfixB p s with
  | false => rfl
  | true => exact absurd (mem_of_infixB h hc) hs

/-- `a` immediately followed by `b` occurs in the list. -/
def pairIn (a b : Char) : List Char → Bool
  | x :: y :: rest => (x == a && y == b) || pairIn a b (y :: rest)
  | _ => false

theorem pairIn_mem_left {a b : Char} {l : List Char}
    (h : pairIn a b l = true) : a ∈ l := by
  induction l with
  | nil => simp [pairIn] at h
  | cons x rest ih =>
    cases rest with
    | nil => simp [pairIn] at h
    | cons y r =>
      simp only [pairIn, Bool.or_eq_true, Bool.and_eq_true, beq_iff_eq] at h
      rcases h with ⟨hx, _⟩ | h
      · exact hx ▸ List.mem_cons_self x (y :: r)
      · exact List.mem_cons.mpr (Or.inr (ih h))

theorem pairIn_cons_of_tail {a b x : Char} {l : List Char}
    (h : pairIn a b l = true) : pairIn a b (x :: l) = true := by
  cases l with
  | nil => simp [pairIn] at h
  | cons y r => simp [pairIn, h]

theorem pairIn_of_prefixB {a b : Char} {p s : List Char}
    (hp : listPrefixB p s = true) (h : pairIn a b p = true) :
    pairIn a b s = true := by
  induction p generalizing s with
  | nil => simp [pairIn] at h
  | cons x xs ih =>
    cases xs with
    | nil => simp [pairIn] at h
    | cons y ys =>
      cases s with
      | nil => simp [listPrefixB] at hp
      | cons c cs =>
        simp only [listPrefixB, Bool.and_eq_true, beq_iff_eq] at hp
        obtain ⟨hxc, hp2⟩ := hp
        cases cs with
        | nil => simp [listPrefixB] at hp2
        | cons d ds =>
          simp only [listPrefixB, Bool.and_eq_true, beq_iff_eq] at hp2
          obtain ⟨hyd, hp3⟩ := hp2
          simp only [pairIn, Bool.or_eq_true, Bool.and_eq_true,
            beq_iff_eq] at h ⊢
          rcases h with ⟨hxa, hyb⟩ | h
          · exact Or.inl ⟨hxc ▸ hxa, hyd ▸ hyb⟩
          · refine Or.inr ?_
            have : listPrefixB (y :: ys) (d :: ds) = true := by
              simp only [listPrefixB, Bool.and_eq_true, beq_iff_eq]
              exact ⟨hyd, hp3⟩
            exact ih this h

theorem pairIn_of_infixB {a b : Char} {p s : List Char}
    (hp : listInfixB p s = true) (h : pairIn a b p = true) :
    pairIn a b s = true := by
  induction s with
  | nil =>
    cases p with
    | nil => simp [pairIn] at h
    | cons x xs => simp [listInfixB, listPrefixB] at hp
  | cons c cs ih =>
    simp only [listInfixB, Bool.or_eq_true] at hp
    rcases hp with hp | hp
    · exact pairIn_of_prefixB hp h
    · exact pairIn_cons_of_tail (ih hp)

theorem pairIn_append (a b : Char) (l m : List Char) :
    pairIn a b (l ++ m) =
      (pairIn a b l || pairIn a b m ||
        (l.getLast? == some a && m.head? == some b)) := by
  induction l with
  | nil => simp [pairIn]
  | cons x xs ih =>
    cases xs with
    | nil =>
      cases m with
      | nil => simp [pairIn]
      | cons y r =>
        cases hx : x == a <;> cases hy : y == b <;>
          simp [pairIn, List.getLast?_singleton, hx, hy]
    | cons y ys =>
      have ih2 : pairIn a b (y :: (ys ++ m)) =
          (pairIn a b (y :: ys) || pairIn a b m ||
            ((y :: ys).getLast? == some a && m.head? == some b)) := by
        simpa using ih
      have hlast : (x :: y :: ys).getLast? = (y :: ys).getLast? := by
        simp [List.getLast?]
      simp only [List.cons_append, pairIn, List.append_eq, ih2, hlast,
        Bool.or_assoc]

theorem digitChar_isDigit (d : Nat) : (digitChar d).isDigit = true := by
  unfold digitChar
  split <;> decide

theorem natReprAux_digits {fuel n : Nat} {c : Char}
    (h : c ∈ natReprAux fuel n) : c.isDigit = true := by
  induction fuel generalizing n with
  | zero => simp [natReprAux] at h
  | succ fuel ih =>
    simp only [natReprAux] at h
    split at h
    · rcases List.mem_singleton.mp h with rfl
      exact digitChar_isDigit n
    · rcases List.mem_append.mp h with h | h
      · exact ih h
      · rcases List.mem_singleton.mp h with rfl
        exact digitChar_isDigit (n % 10)

theorem natRepr_digits {n : Nat} {c : Char} (h : c ∈ (natRepr n).data) :
    c.isDigit = true :=
  natReprAux_digits h

theorem pairIn_natRepr_false {a b : Char} (ha : a.isDigit = false)
    (n : Nat) : pairIn a b (natRepr n).data = false := by
  cases h : pairIn a b (natRepr n).data with
  | false => rfl
  | true => rw [natRepr_digits (pairIn_mem_left h)] at ha; cases ha

theorem getLast?_natRepr_ne {a : Char} (ha : a.isDigit = false) (n : Nat) :
    ((natRepr n).data.getLast? == some a) = false := by
  cases h : (natRepr n).data.getLast? with
  | none => rfl
  | some c =>
    have hc : c ∈ (natRepr n).data := List.mem_of_mem_getLast? h
    simp only [beq_eq_false_iff_ne, ne_eq, Option.some.injEq]
    intro rfl_eq
    rw [rfl_eq] at hc
    rw [natRepr_digits hc] at ha
    cases ha

theorem head?_natRepr_ne {b : Char} (hb : b.isDigit = false) (n : Nat) :
    ((natRepr n).data.head? == some b) = false := by
  cases h : (natRepr n).data.head? with
  | none => rfl
  | some c =>
    have hc : c ∈ (natRepr n).data := List.mem_of_mem_head? h
    simp only [beq_eq_false_iff_ne, ne_eq, Option.some.injEq]
    intro rfl_eq
    rw [rfl_eq] at hc
    rw [natRepr_digits hc] at hb
    cases hb

/-- No character of a decimal numeral is the capital letter `k`. -/
theorem not_mem_natRepr {k : Char} (hk : k.isDigit = false) (n : Nat) :
    k ∉ (natRepr n).data := fun h => by
  rw [natRepr_digits h] at hk
  cases hk

theorem mem_joinSep {sep : String} {l : List String} {c : Char}
    (h : c ∈ (joinSep sep l).data) :
    c ∈ sep.data ∨ ∃ x ∈ l, c ∈ x.data := by
  induction l with
  | nil => simp [joinSep] at h
  | cons x rest ih =>
    cases rest with
    | nil =>
      refine Or.inr ⟨x, List.mem_cons_self x [], ?_⟩
      simpa [joinSep] using h
    | cons y r =>
      simp only [joinSep, String.data_append, List.mem_append] at h
      rcases h with (h | h) | h
      · exact Or.inr ⟨x, List.mem_cons_self x (y :: r), h⟩
      · exact Or.inl h
      · rcases ih h with h | ⟨z, hz, hcz⟩
        · exact Or.inl h
        · exact Or.inr ⟨z, List.mem_cons.mpr (Or.inr hz), hcz⟩

theorem pairIn_un_joinSep {l : List String}
    (hl : ∀ x ∈ l, pairIn 'u' 'n' x.data = false) :
    pairIn 'u' 'n' (joinSep ", " l).data = false := by
  induction l with
  | nil => rfl
  | cons x rest ih =>
    cases rest with
    | nil =>
      simpa [joinSep] using hl x (List.mem_cons_self x [])
    | cons y r =>
      have hx := hl x (List.mem_cons_self x (y :: r))
      have hrest : ∀ z ∈ y :: r, pairIn 'u' 'n' z.data = false :=
        fun z hz => hl z (List.mem_cons.mpr (Or.inr hz))
      have hsep1 : ((", " : String).data.head? == some 'n') = false := by decide
      have hsep2 : pairIn 'u' 'n' (", " : String).data = false := by decide
      have hlast2 : ((x.data ++ (", " : String).data).getLast? ==
          some 'u') = false := by
        rw [List.getLast?_append_of_ne_nil x.data (by decide)]
        decide
      simp only [joinSep, String.data_append]
      rw [pairIn_append, pairIn_append, hx, ih hrest, hsep1, hsep2, hlast2]
      simp

theorem crit_tooShort (n : Nat) : isCriticalIssue (tooShortMsg n) = true := by
  have hpre : listPrefixB ("Too short" : String).data
      ("Too short (" : String).data = true := by decide
  have h : strIncludes (tooShortMsg n) "Too short" = true := by
    show listInfixB _ _ = true
    unfold tooShortMsg
    rw [String.data_append, String.data_append]
    exact listInfixB_of_prefixB
      (listPrefixB_append_left _ (listPrefixB_append_left _ hpre))
  unfold isCriticalIssue
  rw [h]
  rfl

theorem crit_tooLong (n : Nat) : isCriticalIssue (tooLongMsg n) = true := by
  have hpre : listPrefixB ("Too long" : String).data
      ("Too long (" : String).data = true := by decide
  have h : strIncludes (tooLongMsg n) "Too long" = true := by
    show listInfixB _ _ = true
    unfold tooLongMsg
    rw [String.data_append, String.data_append]
    exact listInfixB_of_prefixB
      (listPrefixB_append_left _ (listPrefixB_append_left _ hpre))
  unfold isCriticalIssue
  rw [h]
  simp

theorem crit_idealRange (n : Nat) : isCriticalIssue (idealRangeMsg n) = false := by
  have hdata : (idealRangeMsg n).data =
      (("Length acceptable but outside ideal range (" : String).data ++
          (natRepr n).data) ++ (" chars, ideal 200-250)" : String).data := by
    unfold idealRangeMsg
    rw [String.data_append, String.data_append]
  have hT : ('T' : Char) ∉ (idealRangeMsg n).data := by
    rw [hdata]
    simp only [List.mem_append, not_or]
    exact ⟨⟨by decide, not_mem_natRepr (by decide) n⟩, by decide⟩
  have hM : ('M' : Char) ∉ (idealRangeMsg n).data := by
    rw [hdata]
    simp only [List.mem_append, not_or]
    exact ⟨⟨by decide, not_mem_natRepr (by decide) n⟩, by decide⟩
  have hpair : pairIn 'u' 'n' (idealRangeMsg n).data = false := by
    have ha1 : pairIn 'u' 'n'
        ("Length acceptable but outside ideal range (" : String).data =
        false := by decide
    have ha2 : (("Length acceptable but outside ideal range (" :
        String).data.getLast? == some 'u') = false := by decide
    have hb1 : pairIn 'u' 'n' (" chars, ideal 200-250)" : String).data =
        false := by decide
    have hb2 : ((" chars, ideal 200-250)" : String).data.head? ==
        some 'n') = false := by decide
    rw [hdata, pairIn_append, pairIn_append, ha1, ha2, hb1, hb2,
      pairIn_natRepr_false (by decide) n, head?_natRepr_ne (by decide) n]
    simp
  have h1 : strIncludes (idealRangeMsg n) "Too short" = false :=
    infixB_false_of_not_mem (by decide) hT
  have h2 : strIncludes (idealRangeMsg n) "Too long" = false :=
    infixB_false_of_not_mem (by decide) hT
  have h3 : strIncludes (idealRangeMsg n) "Missing company name" = false :=
    infixB_false_of_not_mem (by decide) hM
  have h4 : strIncludes (idealRangeMsg n) "truncated" = false := by
    cases hinc : strIncludes (idealRangeMsg n) "truncated" with
    | false => rfl
    | true =>
      have := pairIn_of_infixB hinc
        (by decide : pairIn 'u' 'n' ("truncated" : String).data = true)
      rw [hpair] at this
      cases this
  unfold isCriticalIssue
  rw [h1, h2, h3, h4]
  rfl

theorem crit_generic {l : List String} (hl : ∀ x ∈ l, x ∈ GENERIC_PHRASES) :
    isCriticalIssue (genericMsg l) = false := by
  have hphrT : ∀ x ∈ GENERIC_PHRASES, ('T' : Char) ∉ x.data := by decide
  have hphrM : ∀ x ∈ GENERIC_PHRASES, ('M' : Char) ∉ x.data := by decide
  have hphrUN : ∀ x ∈ GENERIC_PHRASES, pairIn 'u' 'n' x.data = false := by
    decide
  have hdata : (genericMsg l).data =
      ("Contains generic phrases: " : String).data ++
        (joinSep ", " l).data := by
    unfold genericMsg
    rw [String.data_append]
  have hT : ('T' : Char) ∉ (genericMsg l).data := by
    rw [hdata]
    simp only [List.mem_append, not_or]
    refine ⟨by decide, fun hmem => ?_⟩
    rcases mem_joinSep hmem with h | ⟨x, hx, hcx⟩
    · revert h
      decide
    · exact hphrT x (hl x hx) hcx
  have hM : ('M' : Char) ∉ (genericMsg l).data := by
    rw [hdata]
    simp only [List.mem_append, not_or]
    refine ⟨by decide, fun hmem => ?_⟩
    rcases mem_joinSep hmem with h | ⟨x, hx, hcx⟩
    · revert h
      decide
    · exact hphrM x (hl x hx) hcx
  have hpair : pairIn 'u' 'n' (genericMsg l).data = false := by
    have ha1 : pairIn 'u' 'n' ("Contains generic phrases: " : String).data =
        false := by decide
    have ha2 : (("Contains generic phrases: " : String).data.getLast? ==
        some 'u') = false := by decide
    have hj : pairIn 'u' 'n' (joinSep ", " l).data = false :=
      pairIn_un_joinSep (fun x hx => hphrUN x (hl x hx))
    rw [hdata, pairIn_append, ha1, ha2, hj]
    simp
  have h1 : strIncludes (genericMsg l) "Too short" = false :=
    infixB_false_of_not_mem (by decide) hT
  have h2 : strIncludes (genericMsg l) "Too long" = false :=
    infixB_false_of_not_mem (by decide) hT
  have h3 : strIncludes (genericMsg l) "Missing company name" = false :=
    infixB_false_of_not_mem (by decide) hM
  have h4 : strIncludes (genericMsg l) "truncated" = false := by
    cases hinc : strIncludes (genericMsg l) "truncated" with
    | false => rfl
    | true =>
      have := pairIn_of_infixB hinc
        (by decide : pairIn 'u' 'n' ("truncated" : String).data = true)
      rw [hpair] at this
      cases this
  unfold isCriticalIssue
  rw [h1, h2, h3, h4]
  rfl

theorem crit_missing : isCriticalIssue "Missing company name" = true := by
  decide

theorem crit_lacks :
    isCriticalIssue "Lacks industry-specific terminology from specialties" =
      false := by decide

theorem crit_capital :
    isCriticalIssue "Does not start with capital letter" = false := by decide

theorem crit_period :
    isCriticalIssue "Does not end with period" = false := by decide

theorem crit_truncated : isCriticalIssue truncatedMsg = true := by decide

theorem crit_vague :
    isCriticalIssue "Contains vague descriptions instead of specific offerings" =
      false := by decide

/-- `passed` is exactly: length in the acceptance window, required name
present, no truncation marker — the other five checks populate `issues`
only. -/
theorem validate_passed_eq (s n sp : String) :
    (validateSummaryQuality s n sp).passed =
      ((decide (180 ≤ s.length) && decide (s.length ≤ 280)) &&
        (strIncludes (jsToLower s) (jsToLower n) ||
          strIncludes (jsToLower s) (companyNameCoreOf n)) &&
        !(TRUNCATION_INDICATORS.any (strIncludes s))) := by
  have hgen := crit_generic
    (l := GENERIC_PHRASES.filter (strIncludes (jsToLower s)))
    (fun x hx => List.mem_of_mem_filter hx)
  unfold validateSummaryQuality
  dsimp only
  simp only [List.filter_append, apply_ite (List.filter isCriticalIssue),
    List.filter_cons, List.filter_nil, crit_tooShort, crit_tooLong,
    crit_idealRange, crit_missing, crit_lacks, crit_capital, crit_period,
    crit_truncated, crit_vague, hgen, if_true, if_false, ite_self]
  cases hlv : (decide (180 ≤ s.length) && decide (s.length ≤ 280)) <;>
    cases hname : (strIncludes (jsToLower s) (jsToLower n) ||
      strIncludes (jsToLower s) (companyNameCoreOf n)) <;>
    cases htr : (TRUNCATION_INDICATORS.any (strIncludes s)) <;>
    simp [hlv, hname, htr, apply_ite List.length]

theorem validate_length (s n sp : String) :
    (validateSummaryQuality s n sp).length = s.length := rfl

theorem validate_hasCompanyName (s n sp : String) :
    (validateSummaryQuality s n sp).hasCompanyName =
      (strIncludes (jsToLower s) (jsToLower n) ||
        strIncludes (jsToLower s) (companyNameCoreOf n)) := rfl

theorem validate_isTruncated (s n sp : String) :
    (validateSummaryQuality s n sp).isTruncated =
      TRUNCATION_INDICATORS.any (strIncludes s) := rfl

theorem validate_hasIndustryTerms_empty (s n : String) :
    (validateSummaryQuality s n "").hasIndustryTerms = false := rfl

/-! ## Claims about the Quality Evaluator (C2, C3) -/

set_option maxRecDepth 40000 in
/-- C2: `passed == true` iff the candidate's length lies in the inclusive
window `[180, 280]`, the required name (full or core form,
case-insensitive) is contained, and no truncation marker is detected;
lengths 180 and 280 pass while 179 and 281 fail (with the name present
and no marker); banned phrases, missing domain terms, bad formatting and
vagueness alone never make `passed` false. -/
theorem C2_passed_iff :
    (∀ s n sp : String,
      (validateSummaryQuality s n sp).passed = true ↔
        (180 ≤ s.length ∧ s.length ≤ 280) ∧
          (strIncludes (jsToLower s) (jsToLower n) = true ∨
            strIncludes (jsToLower s) (companyNameCoreOf n) = true) ∧
          (∀ t ∈ TRUNCATION_INDICATORS, strIncludes s t = false)) ∧
    (validateSummaryQuality ⟨List.replicate 180 'a'⟩ "A" "").passed = true ∧
    (validateSummaryQuality ⟨List.replicate 280 'a'⟩ "A" "").passed = true ∧
    (validateSummaryQuality ⟨List.replicate 179 'a'⟩ "A" "").passed = false ∧
    (validateSummaryQuality ⟨List.replicate 281 'a'⟩ "A" "").passed = false := by
  refine ⟨fun s n sp => ?_, by decide, by decide, by decide, by decide⟩
  rw [validate_passed_eq]
  simp [List.any_eq_false, -Bool.forall_bool]
  tauto

/-- The counterexample candidate for C3: ideal length, name present,
no banned phrase, well-formed, not truncated — but evaluated with an
empty domain-terms source. -/
def summaryC3 : String :=
  "Acme manufactures precision machined components and custom tooling for aerospace and defense manufacturers, supporting prototype development and production runs with in-house engineering and inspection."

set_option maxRecDepth 40000 in
/-- C3, counterexample: with an empty domain-terms source the claimed
conditions for "excellent" all hold (the domain-terms condition holds
vacuously — no source was given), yet the tier is "good", because
`rateSummaryQuality` demands the `hasIndustryTerms` flag unconditionally
and the Evaluator leaves it false when the source is empty. -/
theorem C3_counterexample :
    (validateSummaryQuality summaryC3 "Acme" "").passed = true ∧
      200 ≤ (validateSummaryQuality summaryC3 "Acme" "").length ∧
      (validateSummaryQuality summaryC3 "Acme" "").length ≤ 250 ∧
      (validateSummaryQuality summaryC3 "Acme" "").hasCompanyName = true ∧
      (validateSummaryQuality summaryC3 "Acme" "").hasGenericPhrases = false ∧
      (validateSummaryQuality summaryC3 "Acme" "").isProperlyFormatted = true ∧
      (validateSummaryQuality summaryC3 "Acme" "").isTruncated = false ∧
      (("" : String) ≠ "" →
        (validateSummaryQuality summaryC3 "Acme" "").hasIndustryTerms = true) ∧
      rateSummaryQuality (validateSummaryQuality summaryC3 "Acme" "") =
        SummaryQuality.good ∧
      rateSummaryQuality (validateSummaryQuality summaryC3 "Acme" "") ≠
        SummaryQuality.excellent := by
  decide

/-- C3, amended: "excellent" requires the `hasIndustryTerms` flag itself
(not merely "domain terms present whenever a non-empty source was
given"); since the Evaluator sets that flag to false whenever the
domain-terms source is empty, "excellent" is unreachable for an empty
source.  "good" and "needs_review" are as claimed. -/
theorem C3_amended :
    (∀ q : QualityCheckResult,
      (rateSummaryQuality q = SummaryQuality.excellent ↔
        q.passed = true ∧ 200 ≤ q.length ∧ q.length ≤ 250 ∧
          q.hasCompanyName = true ∧ q.hasGenericPhrases = false ∧
          q.hasIndustryTerms = true ∧ q.isProperlyFormatted = true ∧
          q.isTruncated = false) ∧
      (rateSummaryQuality q = SummaryQuality.good ↔
        ¬(q.passed = true ∧ 200 ≤ q.length ∧ q.length ≤ 250 ∧
            q.hasCompanyName = true ∧ q.hasGenericPhrases = false ∧
            q.hasIndustryTerms = true ∧ q.isProperlyFormatted = true ∧
            q.isTruncated = false) ∧
          q.passed = true ∧ q.hasCompanyName = true ∧
          q.isTruncated = false) ∧
      (rateSummaryQuality q = SummaryQuality.needs_review ↔
        ¬(q.passed = true ∧ q.hasCompanyName = true ∧
          q.isTruncated = false))) ∧
    (∀ s n : String,
      (validateSummaryQuality s n "").hasIndustryTerms = false ∧
        rateSummaryQuality (validateSummaryQuality s n "") ≠
          SummaryQuality.excellent) := by
  constructor
  · intro q
    unfold rateSummaryQuality
    by_cases h1 : q.passed = true ∧ 200 ≤ q.length ∧ q.length ≤ 250 ∧
        q.hasCompanyName = true ∧ q.hasGenericPhrases = false ∧
        q.hasIndustryTerms = true ∧ q.isProperlyFormatted = true ∧
        q.isTruncated = false
    · rw [if_pos h1]
      obtain ⟨hp, h200, h250, hn, hg, hi, hf, ht⟩ := h1
      refine ⟨?_, ?_, ?_⟩
      · simp [hp, h200, h250, hn, hg, hi, hf, ht]
      · constructor
        · intro h
          simp at h
        · rintro ⟨hno, -⟩
          exact absurd ⟨hp, h200, h250, hn, hg, hi, hf, ht⟩ hno
      · constructor
        · intro h
          simp at h
        · intro hno
          exact absurd ⟨hp, hn, ht⟩ hno
    · rw [if_neg h1]
      by_cases h2 : q.passed = true ∧ q.hasCompanyName = true ∧
          q.isTruncated = false
      · rw [if_pos h2]
        obtain ⟨hp, hn, ht⟩ := h2
        refine ⟨?_, ?_, ?_⟩
        · constructor
          · intro h
            simp at h
          · intro hcond
            exact absurd hcond h1
        · exact ⟨fun _ => ⟨h1, hp, hn, ht⟩, fun _ => rfl⟩
        · constructor
          · intro h
            simp at h
          · intro hno
            exact absurd ⟨hp, hn, ht⟩ hno
      · rw [if_neg h2]
        refine ⟨?_, ?_, ?_⟩
        · constructor
          · intro h
            simp at h
          · intro hcond
            exact absurd ⟨hcond.1, hcond.2.2.2.1,
              hcond.2.2.2.2.2.2.2⟩ h2
        · constructor
          · intro h
            simp at h
          · rintro ⟨-, hp, hn, ht⟩
            exact absurd ⟨hp, hn, ht⟩ h2
        · exact ⟨fun _ => h2, fun _ => rfl⟩
  · intro s n
    refine ⟨validate_hasIndustryTerms_empty s n, fun hex => ?_⟩
    unfold rateSummaryQuality at hex
    rw [validate_hasIndustryTerms_empty] at hex
    rw [if_neg (fun h => absurd h.2.2.2.2.2.1 (by decide))] at hex
    split at hex
    · exact absurd hex (by decide)
    · exact absurd hex (by decide)

/-! ## Claims about the Retry/Refinement Controller (C1, C4, C5) -/

/-- A generation service that always returns an empty candidate (which
fails every quality check). -/
def apiAlwaysEmpty : ApiOracle := fun _ => ApiOutcome.ok ""

/-- A row used in the controller counterexamples. -/
def rowC1 : SourcescubRawRow :=
  { companyName := "Acme Co", informalName := "", city := "", state := ""
    website := "", description := "Makes widgets", specialties := ""
    employeeCount := "", latestEstimatedRevenue := "", growthRate6Mo := ""
    growthRate9Mo := "", growthRate24Mo := "", executiveTitle := ""
    executiveFirstName := "", executiveLastName := "", industries := "" }

/-- C1, counterexample: with every candidate rejected by the Quality
Evaluator, the run from `retryCount = 0` issues 6 generation calls (an
initial and a refinement call at each of the levels 0, 1, 2) — more than
the claimed 3 total attempts. -/
theorem C1_counterexample :
    ¬((generateCompanySummary apiAlwaysEmpty rowC1 0 ⟨0, []⟩).2.calls ≤ 3) := by
  have h1 := gen_refine_recurse apiAlwaysEmpty rowC1 0 ⟨0, []⟩ "" ""
    rfl (by decide) (by decide) rfl (by decide) (by decide)
  have h2 := gen_refine_recurse apiAlwaysEmpty rowC1 1 ⟨2, [1000]⟩ "" ""
    rfl (by decide) (by decide) rfl (by decide) (by decide)
  have h3 := gen_refine_final apiAlwaysEmpty rowC1 2 ⟨4, [1000, 1000]⟩ "" ""
    rfl (by decide) (by decide) rfl (by decide)
  rw [h1]
  show ¬((generateCompanySummary apiAlwaysEmpty rowC1 1 ⟨2, [1000]⟩).2.calls ≤ 3)
  rw [h2]
  show ¬((generateCompanySummary apiAlwaysEmpty rowC1 2
    ⟨4, [1000, 1000]⟩).2.calls ≤ 3)
  rw [h3]
  decide

/-- C1, amended: for every row, under every combination of transient
generation failures and quality rejections, the controller makes at most
7 generation attempts in total (each of the up-to-4 recursion levels may
issue an initial call plus a refinement call, except the last), and the
`retries` field of its result never exceeds 3. -/
theorem C1_amended (api : ApiOracle) (company : SourcescubRawRow) :
    (generateCompanySummary api company 0 ⟨0, []⟩).2.calls ≤ 7 ∧
      (generateCompanySummary api company 0 ⟨0, []⟩).1.retries ≤ 3 := by
  rcases gen_master api company MAX_RETRIES 0 ⟨0, []⟩ (Nat.sub_le _ _)
    (Nat.zero_le _) with ⟨hc, hr, -⟩
  constructor
  · simpa [MAX_RETRIES] using hc
  · simpa [MAX_RETRIES] using hr

/-- C4: whenever the controller's result records an error (the absolute
fallback was taken, in particular on budget exhaustion with an
unclassified error), the returned summary is the deterministic
truncation of the row's description with an ellipsis suffix — a function
of the description alone — it is never empty, and the result is tagged
`needs_review`. -/
theorem C4_fallback (api : ApiOracle) (company : SourcescubRawRow)
    (msg : String)
    (h : (generateCompanySummary api company 0 ⟨0, []⟩).1.error = some msg) :
    (generateCompanySummary api company 0 ⟨0, []⟩).1.summary =
        jsSubstring company.description 0 150 ++ "..." ∧
      (generateCompanySummary api company 0 ⟨0, []⟩).1.summary ≠ "" ∧
      (generateCompanySummary api company 0 ⟨0, []⟩).1.quality =
        SummaryQuality.needs_review := by
  rcases gen_master api company MAX_RETRIES 0 ⟨0, []⟩ (Nat.sub_le _ _)
    (Nat.zero_le _) with ⟨-, -, he⟩
  rcases he msg h with ⟨hs, hq⟩
  refine ⟨hs, ?_, hq⟩
  rw [hs]
  intro heq
  have hlen := congrArg String.length heq
  rw [String.length_append] at hlen
  have h3 : ("..." : String).length = 3 := rfl
  have h0 : ("" : String).length = 0 := rfl
  omega

/-- A generation service that always throws an unclassified error. -/
def apiErr500 : ApiOracle := fun _ => ApiOutcome.err 500 "boom"

/-- Witness for C4 at a concrete erroring service. -/
theorem C4_fallback_witness :
    (generateCompanySummary apiErr500 rowC1 0 ⟨0, []⟩).1.error = some "boom" ∧
      (generateCompanySummary apiErr500 rowC1 0 ⟨0, []⟩).1.summary =
          jsSubstring rowC1.description 0 150 ++ "..." ∧
        (generateCompanySummary apiErr500 rowC1 0 ⟨0, []⟩).1.summary ≠ "" ∧
        (generateCompanySummary apiErr500 rowC1 0 ⟨0, []⟩).1.quality =
          SummaryQuality.needs_review := by
  have herr : (generateCompanySummary apiErr500 rowC1 0 ⟨0, []⟩).1.error =
      some "boom" := by
    rw [gen_err_fallback apiErr500 rowC1 0 ⟨0, []⟩ 500 "boom" rfl
      (by decide) (by decide)]
    rfl
  exact ⟨herr, C4_fallback apiErr500 rowC1 "boom" herr⟩

/-- C5: a 429-classified failure with budget left sleeps 5 s, increments
the attempt counter and retries; a 529-classified failure sleeps 10 s
and retries; any other thrown error — including transient ones once the
budget is exhausted — returns the fallback result instead of
propagating an exception (the controller's result type has no error
channel other than the `error` field of the fallback record). -/
theorem C5_transient_backoff :
    (∀ (api : ApiOracle) (company : SourcescubRawRow) (retryCount : Nat)
        (st : GenState) (msg : String),
      api st.calls = ApiOutcome.err 429 msg → retryCount < MAX_RETRIES →
        generateCompanySummary api company retryCount st =
          generateCompanySummary api company (retryCount + 1)
            ⟨st.calls + 1, st.sleeps ++ [5000]⟩) ∧
    (∀ (api : ApiOracle) (company : SourcescubRawRow) (retryCount : Nat)
        (st : GenState) (msg : String),
      api st.calls = ApiOutcome.err 529 msg → retryCount < MAX_RETRIES →
        generateCompanySummary api company retryCount st =
          generateCompanySummary api company (retryCount + 1)
            ⟨st.calls + 1, st.sleeps ++ [10000]⟩) ∧
    (∀ (api : ApiOracle) (company : SourcescubRawRow) (retryCount : Nat)
        (st : GenState) (status : Nat) (msg : String),
      api st.calls = ApiOutcome.err status msg →
        ¬(status = 429 ∧ retryCount < MAX_RETRIES) →
        ¬(status = 529 ∧ retryCount < MAX_RETRIES) →
        generateCompanySummary api company retryCount st =
          (fallbackResult company retryCount msg,
            ⟨st.calls + 1, st.sleeps⟩)) :=
  ⟨gen_err_429, gen_err_529, gen_err_fallback⟩

/-- A generation service that always reports a 429 rate limit. -/
def apiErr429 : ApiOracle := fun _ => ApiOutcome.err 429 "rate limited"

/-- A generation service that always reports a 529 overload. -/
def apiErr529 : ApiOracle := fun _ => ApiOutcome.err 529 "overloaded"

/-- Witness for C5 at concrete failing services (429 with budget, 529
with budget, and 429 with the budget exhausted). -/
theorem C5_transient_backoff_witness :
    (generateCompanySummary apiErr429 rowC1 0 ⟨0, []⟩ =
      generateCompanySummary apiErr429 rowC1 1 ⟨1, [5000]⟩) ∧
    (generateCompanySummary apiErr529 rowC1 0 ⟨0, []⟩ =
      generateCompanySummary apiErr529 rowC1 1 ⟨1, [10000]⟩) ∧
    (generateCompanySummary apiErr429 rowC1 3 ⟨3, [5000, 5000, 5000]⟩ =
      (fallbackResult rowC1 3 "rate limited",
        ⟨4, [5000, 5000, 5000]⟩)) := by
  refine ⟨?_, ?_, ?_⟩
  · exact C5_transient_backoff.1 apiErr429 rowC1 0 ⟨0, []⟩ "rate limited"
      rfl (by decide)
  · exact C5_transient_backoff.2.1 apiErr529 rowC1 0 ⟨0, []⟩ "overloaded"
      rfl (by decide)
  · exact C5_transient_backoff.2.2 apiErr429 rowC1 3 ⟨3, [5000, 5000, 5000]⟩
      429 "rate limited" rfl (by decide) (by decide)

/-! ## Claim about the Batch Enrichment Runner (C6) -/

/-- C6: for every ordered sequence of rows, the batch runner returns one
record per row, in the same order — record `j` is built from row `j` and
that row's own controller run — so no row's failure aborts the batch. -/
theorem C6_batch_order (apis : Nat → ApiOracle)
    (rows : List SourcescubRawRow) (i : Nat) :
    (processCompanies apis rows i).length = rows.length ∧
      ∀ j : Nat, (processCompanies apis rows i)[j]? =
        (rows[j]?).map (fun company => buildProcessed company
          (generateCompanySummary (apis (i + j)) company 0 ⟨0, []⟩).1) := by
  induction rows generalizing i with
  | nil => exact ⟨rfl, fun j => by simp [processCompanies]⟩
  | cons company rest ih =>
    refine ⟨?_, ?_⟩
    · simpa [processCompanies] using (ih (i + 1)).1
    · intro j
      cases j with
      | zero => simp [processCompanies]
      | succ j =>
        have := (ih (i + 1)).2 j
        simpa [processCompanies, Nat.add_assoc, Nat.add_comm 1 j] using this

/-! ## Claim about the initials derivation (C8) -/

/-- C8: `getCompanyInitials` strips the legal suffixes, then takes the
first letters of the first two remaining words (two or more words), the
first two characters of the single remaining word, or the sentinel
`"??"` for an empty (or whitespace-only) name; in particular
`"Apple Inc."` yields `"AP"`, `"Microsoft Corporation"` yields `"MI"`,
and `"Acme Rentals"` yields `"AR"`. -/
theorem C8_initials :
    (∀ name : String, (name = "" ∨ jsTrim name = "") →
      getCompanyInitials name = "??") ∧
    (∀ name w : String, ¬(name = "" ∨ jsTrim name = "") →
      initialsWords name = [w] →
      getCompanyInitials name = jsToUpper (jsSubstring w 0 2)) ∧
    (∀ (name w1 w2 : String) (rest : List String),
      ¬(name = "" ∨ jsTrim name = "") →
      initialsWords name = w1 :: w2 :: rest →
      getCompanyInitials name =
        jsToUpper ⟨w1.data.take 1 ++ w2.data.take 1⟩) ∧
    getCompanyInitials "Apple Inc." = "AP" ∧
    getCompanyInitials "Microsoft Corporation" = "MI" ∧
    getCompanyInitials "Acme Rentals" = "AR" ∧
    getCompanyInitials "" = "??" := by
  refine ⟨?_, ?_, ?_, by decide, by decide, by decide, by decide⟩
  · intro name h
    unfold getCompanyInitials
    rw [if_pos h]
  · intro name w h hw
    unfold getCompanyInitials
    rw [if_neg h, hw]
  · intro name w1 w2 rest h hw
    unfold getCompanyInitials
    rw [if_neg h, hw]

/-- Witness for C8's conditional clauses at concrete names: a
whitespace-only name, a single remaining word after suffix stripping,
and two remaining words. -/
theorem C8_initials_witness :
    (" " = "" ∨ jsTrim " " = "") ∧ getCompanyInitials " " = "??" ∧
      ¬("Microsoft Corporation" = "" ∨ jsTrim "Microsoft Corporation" = "") ∧
      initialsWords "Microsoft Corporation" = ["Microsoft"] ∧
      getCompanyInitials "Microsoft Corporation" =
        jsToUpper (jsSubstring "Microsoft" 0 2) ∧
      ¬("Acme Rentals" = "" ∨ jsTrim "Acme Rentals" = "") ∧
      initialsWords "Acme Rentals" = ["Acme", "Rentals"] ∧
      getCompanyInitials "Acme Rentals" =
        jsToUpper ⟨("Acme" : String).data.take 1 ++
          ("Rentals" : String).data.take 1⟩ := by
  refine ⟨by decide, C8_initials.1 " " (by decide), by decide, by decide,
    C8_initials.2.1 "Microsoft Corporation" "Microsoft" (by decide)
      (by decide),
    by decide, by decide,
    C8_initials.2.2.1 "Acme Rentals" "Acme" "Rentals" [] (by decide)
      (by decide)⟩

/-! ## Claim about the rejection/refinement scenario (C9) -/

/-- C9, counterexample: the candidate claimed in the spec contains no
phrase from the deny-list — "leading-edge" is not one of the twelve
`GENERIC_PHRASES` — so its verdict has `hasGenericPhrases = false` and
its issues are exactly the too-short, missing-name and truncation
descriptors: no banned-phrase descriptor is raised, contradicting the
claim. -/
theorem C9_counterexample :
    (validateSummaryQuality "ACME provides leading-edge solutions..."
        "Initech, Inc." "").hasGenericPhrases = false ∧
      (validateSummaryQuality "ACME provides leading-edge solutions..."
        "Initech, Inc." "").issues =
        [tooShortMsg 39, "Missing company name", truncatedMsg] := by
  decide

/-- The amended candidate: one word changed so that it contains the
deny-listed phrase "cutting-edge". -/
def summaryC9 : String := "ACME provides cutting-edge solutions..."

/-- C9, amended: for the candidate `"ACME provides cutting-edge
solutions..."` (the spec's candidate with its phrase replaced by one
actually on the deny-list) evaluated against the canonical name
`"Initech, Inc."` that it does not contain, the verdict fails with the
missing-name defect, its issues contain both the missing-name and the
banned-phrase descriptors, and the refinement prompt quotes the rejected
candidate verbatim and instructs inclusion of the exact company name and
removal of the banned phrases. -/
theorem C9_amended :
    (validateSummaryQuality summaryC9 "Initech, Inc." "").passed = false ∧
      (validateSummaryQuality summaryC9 "Initech, Inc." "").hasCompanyName =
        false ∧
      (validateSummaryQuality summaryC9 "Initech, Inc." "").issues =
        [tooShortMsg 39, "Missing company name",
          genericMsg ["cutting-edge"], truncatedMsg] ∧
      strIncludes
        (generateRefinementPrompt summaryC9
          (validateSummaryQuality summaryC9 "Initech, Inc." "")
          "Initech, Inc." "")
        summaryC9 = true ∧
      strIncludes
        (generateRefinementPrompt summaryC9
          (validateSummaryQuality summaryC9 "Initech, Inc." "")
          "Initech, Inc." "")
        "- Must include the full company name: \"Initech, Inc.\"" = true ∧
      strIncludes
        (generateRefinementPrompt summaryC9
          (validateSummaryQuality summaryC9 "Initech, Inc." "")
          "Initech, Inc." "")
        "- Remove generic marketing phrases like \"leading provider\", \"innovative solutions\"" =
        true := by
  decide

/-! ## Claim about the asset-fetch fallback chain (C7) -/

theorem initialsLogo_source (env : FetchEnv) (n : String) :
    ((generateInitialsLogo env n).success = true →
      (generateInitialsLogo env n).source = LogoSource.initials) ∧
    ((generateInitialsLogo env n).source = LogoSource.none ↔
      ∃ m, env.btoa (initialsSvg n) = BtoaOutcome.thrown m) := by
  cases h : env.btoa (initialsSvg n) with
  | ok b =>
    have hg : generateInitialsLogo env n =
        { success := true, data := some ("data:image/svg+xml;base64," ++ b)
          source := LogoSource.initials, error := Option.none } := by
      unfold generateInitialsLogo
      rw [h]
    rw [hg]
    refine ⟨fun _ => rfl, ?_, ?_⟩
    · intro hsrc
      cases hsrc
    · rintro ⟨m, hm⟩
      cases hm
  | thrown m =>
    have hg : generateInitialsLogo env n =
        { success := false, data := Option.none, source := LogoSource.none
          error := some m } := by
      unfold generateInitialsLogo
      rw [h]
    rw [hg]
    refine ⟨?_, ?_, ?_⟩
    · intro hs
      cases hs
    · intro _
      exact ⟨m, rfl⟩
    · intro _
      rfl

theorem clearbit_success_source (env : FetchEnv)
    (h : (fetchFromClearbit env).success = true) :
    (fetchFromClearbit env).source = LogoSource.clearbit := by
  cases henv : env.clearbit with
  | thrown m =>
    have he : fetchFromClearbit env =
        { success := false, data := Option.none
          source := LogoSource.clearbit, error := some m } := by
      unfold fetchFromClearbit
      rw [henv]
    rw [he] at h
    cases h
  | resp ok status size b64 =>
    cases ok with
    | false =>
      have he : fetchFromClearbit env =
          { success := false, data := Option.none
            source := LogoSource.clearbit
            error := some ("HTTP " ++ natRepr status) } := by
        unfold fetchFromClearbit
        rw [henv]
        rfl
      rw [he] at h
      cases h
    | true =>
      have he : fetchFromClearbit env =
          { success := true, data := some b64
            source := LogoSource.clearbit, error := Option.none } := by
        unfold fetchFromClearbit
        rw [henv]
        rfl
      rw [he]

theorem favicon_success_source (env : FetchEnv)
    (h : (fetchFromGoogleFavicon env).success = true) :
    (fetchFromGoogleFavicon env).source = LogoSource.favicon := by
  cases henv : env.favicon with
  | thrown m =>
    have he : fetchFromGoogleFavicon env =
        { success := false, data := Option.none
          source := LogoSource.favicon, error := some m } := by
      unfold fetchFromGoogleFavicon
      rw [henv]
    rw [he] at h
    cases h
  | resp ok status size b64 =>
    cases ok with
    | false =>
      have he : fetchFromGoogleFavicon env =
          { success := false, data := Option.none
            source := LogoSource.favicon
            error := some ("HTTP " ++ natRepr status) } := by
        unfold fetchFromGoogleFavicon
        rw [henv]
        rfl
      rw [he] at h
      cases h
    | true =>
      have he : fetchFromGoogleFavicon env =
          if size < 100 then
            { success := false, data := Option.none
              source := LogoSource.favicon
              error := some "Default icon returned" }
          else
            { success := true, data := some b64
              source := LogoSource.favicon, error := Option.none } := by
        unfold fetchFromGoogleFavicon
        rw [henv]
        rfl
      by_cases hs : size < 100
      · rw [he, if_pos hs] at h
        cases h
      · rw [he, if_neg hs]

/-- The favicon tier rejects responses whose blob is smaller than the
100-byte threshold. -/
theorem favicon_small_blob_fails (env : FetchEnv) (ok : Bool)
    (status size : Nat) (b64 : String)
    (henv : env.favicon = HttpOutcome.resp ok status size b64)
    (hsize : size < 100) : (fetchFromGoogleFavicon env).success = false := by
  cases ok with
  | false =>
    have he : fetchFromGoogleFavicon env =
        { success := false, data := Option.none
          source := LogoSource.favicon
          error := some ("HTTP " ++ natRepr status) } := by
      unfold fetchFromGoogleFavicon
      rw [henv]
      rfl
    rw [he]
  | true =>
    have he : fetchFromGoogleFavicon env =
        if size < 100 then
          { success := false, data := Option.none
            source := LogoSource.favicon
            error := some "Default icon returned" }
        else
          { success := true, data := some b64
            source := LogoSource.favicon, error := Option.none } := by
      unfold fetchFromGoogleFavicon
      rw [henv]
      rfl
    rw [he, if_pos hsize]

set_option maxHeartbeats 1000000 in
/-- C7, amended: the fallback chain attempts, in order, either just the
synthesized tier (when the item's domain is blank — blank domains skip
both remote tiers), or primary, primary-then-secondary, or all three;
the secondary tier is consulted only if the primary fails and it rejects
sub-100-byte responses as failures; with a non-blank domain the
synthesized placeholder is produced only if both remote tiers fail; the
provenance tag always matches the tier that succeeded, and provenance
`none` occurs exactly when the synthesis tier was reached and its
`btoa` step threw. -/
theorem C7_fallback_chain :
    (∀ (env : FetchEnv) (d n : String),
      (fetchCompanyLogo env d n).2 = [Tier.initials] ∨
        (fetchCompanyLogo env d n).2 = [Tier.clearbit] ∨
        (fetchCompanyLogo env d n).2 = [Tier.clearbit, Tier.favicon] ∨
        (fetchCompanyLogo env d n).2 =
          [Tier.clearbit, Tier.favicon, Tier.initials]) ∧
    (∀ (env : FetchEnv) (d n : String),
      (fetchCompanyLogo env d n).2 = [Tier.initials] ↔
        (d = "" ∨ jsTrim d = "")) ∧
    (∀ (env : FetchEnv) (d n : String),
      Tier.favicon ∈ (fetchCompanyLogo env d n).2 →
        (fetchFromClearbit env).success = false) ∧
    (∀ (env : FetchEnv) (ok : Bool) (status size : Nat) (b64 : String),
      env.favicon = HttpOutcome.resp ok status size b64 → size < 100 →
        (fetchFromGoogleFavicon env).success = false) ∧
    (∀ (env : FetchEnv) (d n : String),
      ¬(d = "" ∨ jsTrim d = "") →
      Tier.initials ∈ (fetchCompanyLogo env d n).2 →
        (fetchFromClearbit env).success = false ∧
          (fetchFromGoogleFavicon env).success = false) ∧
    (∀ (env : FetchEnv) (d n : String),
      (fetchCompanyLogo env d n).1.success = true →
        ((fetchCompanyLogo env d n).2.getLast? = some Tier.clearbit ∧
            (fetchCompanyLogo env d n).1.source = LogoSource.clearbit) ∨
          ((fetchCompanyLogo env d n).2.getLast? = some Tier.favicon ∧
            (fetchCompanyLogo env d n).1.source = LogoSource.favicon) ∨
          ((fetchCompanyLogo env d n).2.getLast? = some Tier.initials ∧
            (fetchCompanyLogo env d n).1.source = LogoSource.initials)) ∧
    (∀ (env : FetchEnv) (d n : String),
      (fetchCompanyLogo env d n).1.source = LogoSource.none ↔
        (Tier.initials ∈ (fetchCompanyLogo env d n).2 ∧
          ∃ m, env.btoa (initialsSvg n) = BtoaOutcome.thrown m)) := by
  refine ⟨?_, ?_, ?_, ?_, ?_, ?_, ?_⟩
  · intro env d n
    unfold fetchCompanyLogo
    dsimp only
    split_ifs with hb hcb hfav <;> simp
  · intro env d n
    unfold fetchCompanyLogo
    dsimp only
    split_ifs with hb hcb hfav
    · exact iff_of_true rfl hb
    · simp [hb]
    · simp [hb]
    · simp [hb]
  · intro env d n
    unfold fetchCompanyLogo
    dsimp only
    split_ifs with hb hcb hfav
    · intro hmem
      simp at hmem
    · intro hmem
      simp at hmem
    · intro _
      simpa using hcb
    · intro _
      simpa using hcb
  · exact favicon_small_blob_fails
  · intro env d n hb
    unfold fetchCompanyLogo
    dsimp only
    rw [if_neg hb]
    split_ifs with hcb hfav
    · intro hmem
      simp at hmem
    · intro hmem
      simp at hmem
    · intro _
      exact ⟨by simpa using hcb, by simpa using hfav⟩
  · intro env d n
    unfold fetchCompanyLogo
    dsimp only
    split_ifs with hb hcb hfav <;> intro hs
    · exact Or.inr (Or.inr ⟨by simp, (initialsLogo_source env n).1 hs⟩)
    · exact Or.inl ⟨by simp, clearbit_success_source env hcb⟩
    · exact Or.inr (Or.inl ⟨by simp, favicon_success_source env hfav⟩)
    · exact Or.inr (Or.inr ⟨by simp, (initialsLogo_source env n).1 hs⟩)
  · intro env d n
    unfold fetchCompanyLogo
    dsimp only
    split_ifs with hb hcb hfav
    · constructor
      · intro hsrc
        exact ⟨by simp, (initialsLogo_source env n).2.mp hsrc⟩
      · rintro ⟨-, hm⟩
        exact (initialsLogo_source env n).2.mpr hm
    · constructor
      · intro hsrc
        have hcl := clearbit_success_source env hcb
        dsimp only at hsrc
        rw [hcl] at hsrc
        cases hsrc
      · rintro ⟨hmem, -⟩
        simp at hmem
    · constructor
      · intro hsrc
        have hfv := favicon_success_source env hfav
        dsimp only at hsrc
        rw [hfv] at hsrc
        cases hsrc
      · rintro ⟨hmem, -⟩
        simp at hmem
    · constructor
      · intro hsrc
        exact ⟨by simp, (initialsLogo_source env n).2.mp hsrc⟩
      · rintro ⟨-, hm⟩
        exact (initialsLogo_source env n).2.mpr hm

/-- An environment whose remote tiers would both succeed. -/
def envRemoteOk : FetchEnv :=
  { clearbit := HttpOutcome.resp true 200 5000 "IMG"
    favicon := HttpOutcome.resp true 200 5000 "FAV"
    btoa := fun _ => BtoaOutcome.ok "B64" }

/-- C7, counterexample: with a blank domain the synthesized placeholder
is produced even though neither remote tier failed (they were never
attempted, and would have succeeded) — refuting "the synthesized
placeholder is produced only if both remote tiers fail". -/
theorem C7_counterexample :
    (fetchCompanyLogo envRemoteOk "" "Acme").1.source = LogoSource.initials ∧
      (fetchCompanyLogo envRemoteOk "" "Acme").2 = [Tier.initials] ∧
      (fetchFromClearbit envRemoteOk).success = true ∧
      (fetchFromGoogleFavicon envRemoteOk).success = true := by
  decide

/-- Witness for C7's conditional clauses at a concrete environment
(clearbit down, favicon serving a trivially small blob, synthesis
succeeding) and a non-blank domain. -/
def envC7 : FetchEnv :=
  { clearbit := HttpOutcome.thrown "timeout"
    favicon := HttpOutcome.resp true 200 50 "TINY"
    btoa := fun _ => BtoaOutcome.ok "B64" }

theorem C7_fallback_chain_witness :
    ((fetchCompanyLogo envC7 "acme.com" "Acme").2 = [Tier.initials] ∨
      (fetchCompanyLogo envC7 "acme.com" "Acme").2 = [Tier.clearbit] ∨
      (fetchCompanyLogo envC7 "acme.com" "Acme").2 =
        [Tier.clearbit, Tier.favicon] ∨
      (fetchCompanyLogo envC7 "acme.com" "Acme").2 =
        [Tier.clearbit, Tier.favicon, Tier.initials]) ∧
    ((fetchCompanyLogo envC7 "acme.com" "Acme").2 = [Tier.initials] ↔
      (("acme.com" : String) = "" ∨ jsTrim "acme.com" = "")) ∧
    (fetchFromClearbit envC7).success = false ∧
    ((fetchFromGoogleFavicon envC7).success = false) ∧
    ((fetchFromClearbit envC7).success = false ∧
      (fetchFromGoogleFavicon envC7).success = false) ∧
    ((fetchCompanyLogo envC7 "acme.com" "Acme").2.getLast? =
        some Tier.initials ∧
      (fetchCompanyLogo envC7 "acme.com" "Acme").1.source =
        LogoSource.initials) ∧
    ((fetchCompanyLogo envC7 "acme.com" "Acme").1.source =
        LogoSource.none ↔
      (Tier.initials ∈ (fetchCompanyLogo envC7 "acme.com" "Acme").2 ∧
        ∃ m, envC7.btoa (initialsSvg "Acme") = BtoaOutcome.thrown m)) := by
  have hfav : Tier.favicon ∈ (fetchCompanyLogo envC7 "acme.com" "Acme").2 := by
    decide
  have hini : Tier.initials ∈ (fetchCompanyLogo envC7 "acme.com" "Acme").2 := by
    decide
  have hsucc : (fetchCompanyLogo envC7 "acme.com" "Acme").1.success = true := by
    decide
  refine ⟨C7_fallback_chain.1 envC7 "acme.com" "Acme",
    C7_fallback_chain.2.1 envC7 "acme.com" "Acme",
    C7_fallback_chain.2.2.1 envC7 "acme.com" "Acme" hfav,
    C7_fallback_chain.2.2.2.1 envC7 true 200 50 "TINY" rfl (by decide),
    C7_fallback_chain.2.2.2.2.1 envC7 "acme.com" "Acme" (by decide) hini,
    ?_, C7_fallback_chain.2.2.2.2.2.2 envC7 "acme.com" "Acme"⟩
  rcases C7_fallback_chain.2.2.2.2.2.1 envC7 "acme.com" "Acme" hsucc with
    ⟨h1, -⟩ | ⟨h1, -⟩ | h1
  · exact absurd h1 (by decide)
  · exact absurd h1 (by decide)
  · exact h1

/-! ## Claim about the batch logo map (C10) -/

theorem mapGet_replace_ne {k k' : String} {v : LogoResult} (h : k ≠ k')
    (m : LogoMap) :
    mapGet (m.map (fun p => if p.1 = k then (k, v) else p)) k' =
      mapGet m k' := by
  induction m with
  | nil => rfl
  | cons p rest ih =>
    by_cases hp : p.1 = k
    · simp only [List.map_cons, if_pos hp, mapGet, List.find?_cons]
      have hk : (decide (k = k')) = false := by simpa using h
      have hpk : (decide (p.1 = k')) = false := by
        simp only [decide_eq_false_iff_not]
        rw [hp]
        exact h
      rw [hk, hpk]
      exact ih
    · simp only [List.map_cons, if_neg hp, mapGet, List.find?_cons]
      cases hpk : (decide (p.1 = k')) with
      | true => rfl
      | false => exact ih

theorem mapGet_replace_eq {k : String} {v : LogoResult} (m : LogoMap)
    (h : m.any (fun p => p.1 = k) = true) :
    mapGet (m.map (fun p => if p.1 = k then (k, v) else p)) k = some v := by
  induction m with
  | nil => simp at h
  | cons p rest ih =>
    by_cases hp : p.1 = k
    · simp [mapGet, List.find?_cons, if_pos hp]
    · simp only [List.any_cons, Bool.or_eq_true, decide_eq_true_eq] at h
      rcases h with h | h
    
      · exact absurd h hp
      · simp only [List.map_cons, if_neg hp, mapGet, List.find?_cons]
        have hpk : (decide (p.1 = k)) = false := by simpa using hp
        rw [hpk]
        exact ih h

theorem mapGet_mapSet (m : LogoMap) (k k' : String) (v : LogoResult) :
    mapGet (mapSet m k v) k' = if k = k' then some v else mapGet m k' := by
  unfold mapSet
  by_cases hany : m.any (fun p => p.1 = k) = true
  · rw [if_pos hany]
    by_cases hk : k = k'
    · rw [if_pos hk]
      rw [← hk]
      exact mapGet_replace_eq m hany
    · rw [if_neg hk]
      exact mapGet_replace_ne hk m
  · rw [if_neg hany]
    induction m with
    | nil =>
      by_cases hk : k = k'
      · simp [mapGet, hk]
      · have hkd : (decide (k = k')) = false := by simpa using hk
        simp [mapGet, List.find?_cons, hkd, hk]
    | cons p rest ih =>
      simp only [List.any_cons, Bool.or_eq_true, decide_eq_true_eq,
        not_or] at hany
      obtain ⟨hpk, hrest⟩ := hany
      simp only [List.cons_append, mapGet, List.find?_cons]
      cases hp : (decide (p.1 = k')) with
      | true =>
        have hkk : ¬ k = k' := by
          intro hk
          exact hpk (by rw [← hk] at hp; simpa using hp)
        rw [if_neg hkk]
      | false =>
        have := ih (by simpa using hrest)
        simpa [mapGet] using this

theorem storeBatch_append (envs : Nat → FetchEnv) (a b : List LogoRequest) :
    ∀ (i : Nat) (acc : LogoMap),
      storeBatch envs (a ++ b) i acc =
        storeBatch envs b (i + a.length) (storeBatch envs a i acc) := by
  induction a with
  | nil => intro i acc; simp [storeBatch]
  | cons x xs ih =>
    intro i acc
    simp only [List.cons_append, storeBatch, List.length_cons,
      List.append_eq]
    rw [ih]
    congr 1
    omega

theorem batchLoop_eq_storeBatch (envs : Nat → FetchEnv) {concurrency : Nat}
    (hc : concurrency ≠ 0) :
    ∀ (q : List LogoRequest) (i : Nat) (acc : LogoMap),
      batchLoop envs concurrency q i acc = storeBatch envs q i acc := by
  suffices H : ∀ (len : Nat) (q : List LogoRequest), q.length ≤ len →
      ∀ (i : Nat) (acc : LogoMap),
        batchLoop envs concurrency q i acc = storeBatch envs q i acc by
    intro q i acc
    exact H q.length q (le_refl _) i acc
  intro len
  induction len with
  | zero =>
    intro q hq i acc
    rw [List.length_eq_zero.mp (Nat.le_zero.mp hq)]
    rw [batchLoop]
    rfl
  | succ len ih =>
    intro q hq i acc
    cases q with
    | nil =>
      rw [batchLoop]
      rfl
    | cons x xs =>
      rw [batchLoop, if_neg hc]
      have hdrop : ((x :: xs).drop concurrency).length ≤ len := by
        simp only [List.length_drop, List.length_cons]
        simp only [List.length_cons] at hq
        omega
      rw [ih _ hdrop]
      rw [← storeBatch_append]
      rw [List.take_append_drop]

/-- The value the JS map ends up holding for `name`: the fetch result of
the last input item carrying that name (later items shadow earlier
ones). -/
def lookupLast (envs : Nat → FetchEnv) (name : String) :
    List LogoRequest → Nat → Option LogoResult
  | [], _ => Option.none
  | item :: rest, i =>
    match lookupLast envs name rest (i + 1) with
    | some r => some r
    | Option.none =>
      if item.companyName = name then
        some (fetchCompanyLogo (envs i) item.domain item.companyName).1
      else Option.none

theorem storeBatch_get (envs : Nat → FetchEnv) (name : String) :
    ∀ (q : List LogoRequest) (i : Nat) (acc : LogoMap),
      mapGet (storeBatch envs q i acc) name =
        match lookupLast envs name q i with
        | some r => some r
        | Option.none => mapGet acc name := by
  intro q
  induction q with
  | nil => intro i acc; rfl
  | cons item rest ih =>
    intro i acc
    simp only [storeBatch, lookupLast]
    rw [ih]
    cases hl : lookupLast envs name rest (i + 1) with
    | some r => rfl
    | none =>
      rw [mapGet_mapSet]
      by_cases hk : item.companyName = name
      · rw [if_pos hk, if_pos hk]
      · rw [if_neg hk, if_neg hk]

theorem countP_mapSet (m : LogoMap) (k name : String) (v : LogoResult)
    (h : m.countP (fun p => p.1 = name) ≤ 1) :
    (mapSet m k v).countP (fun p => p.1 = name) ≤ 1 := by
  unfold mapSet
  by_cases hany : m.any (fun p => p.1 = k) = true
  · rw [if_pos hany]
    have : ∀ p : String × LogoResult,
        (decide ((if p.1 = k then (k, v) else p).1 = name)) =
          (decide (p.1 = name)) := by
      intro p
      by_cases hp : p.1 = k
      · rw [if_pos hp, hp]
      · rw [if_neg hp]
    rw [List.countP_map]
    calc (List.countP ((fun p => decide (p.1 = name)) ∘
          fun p => if p.1 = k then (k, v) else p) m)
        = m.countP (fun p => decide (p.1 = name)) := by
          apply List.countP_congr
          intro p _
          simp only [Function.comp_apply]
          rw [this p]
      _ ≤ 1 := h
  · rw [if_neg hany]
    rw [List.countP_append]
    by_cases hk : k = name
    · have hzero : m.countP (fun p => p.1 = name) = 0 := by
        rw [List.countP_eq_zero]
        intro p hp
        simp only [decide_eq_true_eq]
        intro hpn
        exact hany (List.any_eq_true.mpr ⟨p, hp, by simp [hpn, hk]⟩)
      rw [hzero]
      simp [hk]
    · have : List.countP (fun p => decide (p.1 = name)) [(k, v)] = 0 := by
        simp [hk]
      rw [this]
      simpa using h

theorem storeBatch_countP (envs : Nat → FetchEnv) (name : String) :
    ∀ (q : List LogoRequest) (i : Nat) (acc : LogoMap),
      acc.countP (fun p => p.1 = name) ≤ 1 →
      (storeBatch envs q i acc).countP (fun p => p.1 = name) ≤ 1 := by
  intro q
  induction q with
  | nil => intro i acc h; exact h
  | cons item rest ih =>
    intro i acc h
    exact ih (i + 1) _ (countP_mapSet _ _ _ _ h)

/-- Environments for the concrete duplicate-key run: the two items share
the key `"Acme"` but fetch different images. -/
def envsC10 : Nat → FetchEnv := fun i =>
  { clearbit :=
      HttpOutcome.resp true 200 5000 (if i = 0 then "IMG0" else "IMG1")
    favicon := HttpOutcome.resp true 200 5000 "FAV"
    btoa := fun _ => BtoaOutcome.ok "B64" }

set_option maxHeartbeats 1000000 in
/-- C10: the batch logo fetcher keys its map by `companyName`: the map
holds, for every name, the result of the last input item with that name
(at most one entry per name), so with duplicate names the map is
strictly smaller than the input; and the merge step gives every record
sharing a name the same logo fields. -/
theorem C10_logo_map :
    (∀ (envs : Nat → FetchEnv) (companies : List LogoRequest)
        (concurrency : Nat) (name : String), concurrency ≠ 0 →
      mapGet (batchFetchLogos envs companies concurrency) name =
        lookupLast envs name companies 0) ∧
    (∀ (envs : Nat → FetchEnv) (companies : List LogoRequest)
        (concurrency : Nat) (name : String), concurrency ≠ 0 →
      (batchFetchLogos envs companies concurrency).countP
        (fun p => p.1 = name) ≤ 1) ∧
    mapSize (batchFetchLogos envsC10
      [⟨"a.com", "Acme"⟩, ⟨"b.com", "Acme"⟩] 5) = 1 ∧
    mapGet (batchFetchLogos envsC10
        [⟨"a.com", "Acme"⟩, ⟨"b.com", "Acme"⟩] 5) "Acme" =
      some (fetchCompanyLogo (envsC10 1) "b.com" "Acme").1 ∧
    (∀ (m : LogoMap) (records : List ProcessedCompany) (i j : Nat)
        (ri rj : ProcessedCompany),
      records[i]? = some ri → records[j]? = some rj →
      ri.companyName = rj.companyName → ri.logo = rj.logo →
      ((attachLogos m records)[i]?).map (fun r => (r.logo, r.logoSource)) =
        ((attachLogos m records)[j]?).map
          (fun r => (r.logo, r.logoSource))) ∧
    (∀ (company : SourcescubRawRow) (summaryResult : AISummaryResult),
      (buildProcessed company summaryResult).logo = Option.none) := by
  have hlast : ∀ (o : Option LogoResult),
      (match o with
        | some r => some r
        | Option.none => (Option.none : Option LogoResult)) = o := by
    intro o
    cases o <;> rfl
  refine ⟨?_, ?_, ?_, ?_, ?_, fun _ _ => rfl⟩
  · intro envs companies concurrency name hc
    unfold batchFetchLogos
    rw [batchLoop_eq_storeBatch envs hc, storeBatch_get]
    have : mapGet ([] : LogoMap) name = Option.none := rfl
    rw [this]
    exact hlast _
  · intro envs companies concurrency name hc
    unfold batchFetchLogos
    rw [batchLoop_eq_storeBatch envs hc]
    exact storeBatch_countP envs name companies 0 [] (by simp)
  · unfold mapSize batchFetchLogos
    rw [batchLoop_eq_storeBatch envsC10 (by decide)]
    decide
  · unfold batchFetchLogos
    rw [batchLoop_eq_storeBatch envsC10 (by decide)]
    decide
  · intro m records i j ri rj hi hj hname hlogo
    simp only [attachLogos, List.getElem?_map, hi, hj, Option.map_some']
    unfold attachLogo
    rw [hname]
    cases hm : mapGet m rj.companyName with
    | none => simp [hlogo]
    | some lr =>
      by_cases hs : lr.success = true
      · simp [hs]
      · simp only [Bool.not_eq_true] at hs
        simp [hs, hlogo]

/-- Witness for C10's conditional clauses at the concrete duplicate-key
input (and a two-record merge sharing one name). -/
theorem C10_logo_map_witness :
    ((5 : Nat) ≠ 0 ∧
      mapGet (batchFetchLogos envsC10
          [⟨"a.com", "Acme"⟩, ⟨"b.com", "Acme"⟩] 5) "Acme" =
        lookupLast envsC10 "Acme" [⟨"a.com", "Acme"⟩, ⟨"b.com", "Acme"⟩] 0) ∧
    (batchFetchLogos envsC10
        [⟨"a.com", "Acme"⟩, ⟨"b.com", "Acme"⟩] 5).countP
      (fun p => p.1 = "Acme") ≤ 1 ∧
    (((attachLogos [] [buildProcessed rowC1
          { summary := "s", quality := SummaryQuality.good, retries := 0 },
        buildProcessed rowC1
          { summary := "t", quality := SummaryQuality.good,
            retries := 1 }])[0]?).map (fun r => (r.logo, r.logoSource)) =
      ((attachLogos [] [buildProcessed rowC1
          { summary := "s", quality := SummaryQuality.good, retries := 0 },
        buildProcessed rowC1
          { summary := "t", quality := SummaryQuality.good,
            retries := 1 }])[1]?).map (fun r => (r.logo, r.logoSource))) := by
  refine ⟨⟨by decide, ?_⟩, ?_, ?_⟩
  · exact C10_logo_map.1 envsC10 [⟨"a.com", "Acme"⟩, ⟨"b.com", "Acme"⟩] 5
      "Acme" (by decide)
  · exact C10_logo_map.2.1 envsC10 [⟨"a.com", "Acme"⟩, ⟨"b.com", "Acme"⟩] 5
      "Acme" (by decide)
  · exact C10_logo_map.2.2.2.2.1 []
      [buildProcessed rowC1
        { summary := "s", quality := SummaryQuality.good, retries := 0 },
       buildProcessed rowC1
        { summary := "t", quality := SummaryQuality.good, retries := 1 }]
      0 1 _ _ rfl rfl rfl rfl

end TargetList
